import Mathlib

/-!
# BOTFRONT chat widget: conversation state machine

A shallow embedding of `src/components/CompanyChatbot.jsx` (namespace
`CompanyChatbot`) and of the embed script `public/embed.js` (namespace `Embed`).

* JavaScript strings are Lean `String`s; `includes` and `trim` are written out
  over the character list.  `String.prototype.toLowerCase` is a platform
  function: every definition that calls it takes it as the parameter
  `toLowerCase`, and `asciiLower` is its restriction to ASCII text, used for
  concrete inputs.
* A parsed response body is a `JSVal`; property reads, truthiness and the
  `TypeError`s the handler can run into are modelled as JavaScript defines them.
* React state is the record `State`.  A handler reads the values captured when
  it was created (`cap`) and queues updates that are applied in order (`cur`).
* A turn is one call of `sendMessage` run to completion: the outcome of the
  awaited `fetch` is an argument (`FetchResult`), the readings of the clock are
  another (`Clock`), and the result is the state afterwards with the effects
  issued.  The other handlers (`loadCompanyData`, `handleVoiceInput`,
  `speakText`, `speakMessage`, `toggleVoiceOutput`) are modelled the same way.
* The two emphasis replacements of `speakText` are a left-to-right scan that
  follows the regular expression `M(.*?)M` with the flag `g`; the replacements
  of `formatMessage` are scans of the same kind, over code points.
* The embed script acts on a `Page`; each run of `initChatWidget` owns a
  `Widget`, and `click` runs the handlers of one click in bubbling order.
-/

namespace CompanyChatbot

/-! ## Strings -/

/-- `hay` has `needle` as a contiguous block of characters. -/
def includesChars (needle : List Char) : List Char → Bool
  | [] => needle.isEmpty
  | c :: cs => needle.isPrefixOf (c :: cs) || includesChars needle cs

/-- `s.includes(sub)` of JavaScript. -/
def includes (s sub : String) : Bool :=
  includesChars sub.data s.data

/-- White space and line terminators, the characters `trim()` strips. -/
def isWhiteSpace (c : Char) : Bool :=
  let n := c.toNat
  n == 9 || n == 10 || n == 11 || n == 12 || n == 13 || n == 32 || n == 160 ||
  n == 5760 || (8192 ≤ n && n ≤ 8202) || n == 8232 || n == 8233 || n == 8239 ||
  n == 8287 || n == 12288 || n == 65279

/-- `s.trim()` of JavaScript. -/
def trim (s : String) : String :=
  ⟨((s.data.dropWhile isWhiteSpace).reverse.dropWhile isWhiteSpace).reverse⟩

/-- `toLowerCase` on ASCII text: `A`..`Z` become `a`..`z`, every other
character is kept. -/
def asciiLower (s : String) : String :=
  ⟨s.data.map Char.toLower⟩

/-! ## JavaScript values -/

/-- A JavaScript value as `response.json()` and property reads produce it.
The handler observes of a number only that it is a number and whether it is
zero, so integers stand for all numbers.  `fields` lists the own properties of
a parsed object, each key once. -/
inductive JSVal where
  | undefined
  | null
  | bool (b : Bool)
  | num (n : Int)
  | str (s : String)
  | arr (items : List JSVal)
  | obj (fields : List (String × JSVal))

/-- JavaScript truthiness (`if (v)`, `v || w`). -/
def truthy : JSVal → Bool
  | .undefined => false
  | .null => false
  | .bool b => b
  | .num n => n != 0
  | .str s => s != ""
  | .arr _ => true
  | .obj _ => true

/-- The property read `v.key` for the keys the widget reads (`success`, `data`,
`answer`, `matchedFAQ`, `followUpQuestions`, `suggestedQuestions`, `error`):
`none` is the `TypeError`
of reading a property of `undefined` or `null`; an object yields its field or
`undefined`; any other value has no such property and yields `undefined`. -/
def getProp (v : JSVal) (key : String) : Option JSVal :=
  match v with
  | .undefined => none
  | .null => none
  | .obj fields => some ((fields.lookup key).getD .undefined)
  | _ => some .undefined

/-! ## Data model -/

/-- The `type` field of a message. -/
inductive MessageType where
  | user
  | bot
  deriving DecidableEq, Repr

/-- A chat message object.  `matchedFAQ` is `undefined` and `isError` is `none`
when the object has no such property. -/
structure Message where
  id : Nat
  type : MessageType
  content : JSVal
  timestamp : String
  matchedFAQ : JSVal := .undefined
  isError : Option Bool := none

/-- The values of `conversationContext`. -/
inductive ConversationContext where
  | initial
  | contact_phase
  | pricing_phase
  | results_phase
  | team_phase
  | process_phase
  | general
  deriving DecidableEq, Repr

/-- The React state of one mounted widget.  `recognition` and
`speechSynthesis` say whether the state holds an engine (`true`) or `null`. -/
structure State where
  isOpen : Bool
  messages : List Message
  inputValue : String
  isTyping : Bool
  suggestedQuestions : JSVal
  showSuggestions : Bool
  followUpQuestions : List JSVal
  usedQuestions : Finset String
  conversationContext : ConversationContext
  isListening : Bool
  isVoiceEnabled : Bool
  isSpeaking : Bool
  recognition : Bool := false
  speechSynthesis : Bool := false

/-- The JSON body of the request to `/api/chat`. -/
structure ChatRequest where
  message : String
  conversationHistory : List Message
  usedQuestions : Finset String
  conversationContext : ConversationContext

/-- A voice of the synthesis engine. -/
structure Voice where
  name : String
  lang : String
  deriving DecidableEq, Repr

/-- A `SpeechSynthesisUtterance` as `speakText` configures it. -/
structure Utterance where
  text : String
  voice : Option Voice
  rate : ℚ
  pitch : ℚ
  volume : ℚ
  deriving DecidableEq

/-- What a handler asks of the browser: the chat request, the timer that
speaks a reply, an `alert`, the calls on the recognition engine, the microphone
request, the timer that retries `recognition.start()`, and the calls on the
synthesis engine. -/
inductive Effect where
  | fetchChat (req : ChatRequest)
  | speakLater (delay : Nat) (text : JSVal)
  | alert (text : String)
  | recognitionStop
  | recognitionStart
  | getUserMedia
  | retryStartLater (delay : Nat)
  | synthesisCancel
  | synthesisSpeak (utterance : Utterance)

/-- How the awaited `fetch` of `/api/chat` ends: it rejects, or it resolves to
a response with a status and a body (`none`: `response.json()` rejects). -/
inductive FetchResult where
  | networkError
  | response (status : Nat) (body : Option JSVal)

/-- `response.ok`: the status is in the range 200 to 299. -/
def responseOk (status : Nat) : Bool :=
  200 ≤ status && status ≤ 299

/-- The readings of `Date.now()` and of the formatted clock when the user
message, the reply and the fallback reply are built. -/
structure Clock where
  userNow : Nat
  userTime : String
  replyNow : Nat
  replyTime : String
  fallbackNow : Nat
  fallbackTime : String

/-- `usedQuestions.has(q)`: only a string can be a member of the set. -/
def has (used : Finset String) (q : JSVal) : Bool :=
  match q with
  | .str t => decide (t ∈ used)
  | _ => false

/-! ## The literals of the `catch` block -/

/-- The text every fallback reply starts with. -/
def connectivityPreface : String :=
  "I'm experiencing connectivity issues right now. "

/-- The services reply. -/
def servicesBlurb : String :=
  "We offer AI-powered chatbots, automation solutions, and premium web development. Our services include smart chatbots, voice AI, automation tools, and custom websites."

/-- The contact reply. -/
def contactDetails : String :=
  "You can reach us at designedbymarso@gmail.com or call +359 988 777 80. We guarantee a 24-hour response time!"

/-- The pricing reply. -/
def pricingBlurb : String :=
  "Our pricing is tailored to your specific needs. Contact us for a personalized quote and consultation."

/-- The team reply. -/
def teamRoster : String :=
  "Our team includes Binoli Shah (Founder), Ghanaroopa Sawant (UI/UX Designer), Darshan Jain (Full-Stack Developer), and Heet Gala (AI/ML Developer)."

/-- The reply of the final `else`. -/
def genericApology : String :=
  "Please try asking about our services, pricing, or contact information. You can also reach us directly at designedbymarso@gmail.com or +359 988 777 80."

/-! ## The message objects `sendMessage` builds -/

/-- The `userMessage` object. -/
def userMessage (clk : Clock) (msg : String) : Message :=
  { id := clk.userNow, type := .user, content := .str msg, timestamp := clk.userTime }

/-- The `botMessage` object of the success path. -/
def replyMessage (clk : Clock) (answer matchedFAQ : JSVal) : Message :=
  { id := clk.replyNow + 1, type := .bot, content := answer, timestamp := clk.replyTime,
    matchedFAQ := matchedFAQ }

section Handlers

variable (toLowerCase : String → String)

/-! ## `updateConversationContext` -/

/-- The `if`/`else if` chain of `updateConversationContext` over the
lower-cased response. -/
def contextOf (response : String) : ConversationContext :=
  if includes response "call" || includes response "contact" || includes response "email" then
    .contact_phase
  else if includes response "pricing" || includes response "cost" ||
      includes response "investment" then
    .pricing_phase
  else if includes response "result" || includes response "%" || includes response "growth" then
    .results_phase
  else if includes response "team" || includes response "binoli" ||
      includes response "darshan" then
    .team_phase
  else if includes response "process" || includes response "discover" ||
      includes response "build" then
    .process_phase
  else
    .general

/-- `updateConversationContext(botResponse, userMessage)`.  `none` is the
`TypeError` of `botResponse.toLowerCase()` on a value that is not a string,
raised before any state is set.  The size test reads the captured set. -/
def updateConversationContext (cap cur : State) (botResponse : JSVal) (_userMessage : String) :
    Option State :=
  match botResponse with
  | .str r =>
    let response := toLowerCase r
    let cur := { cur with conversationContext := contextOf response }
    some (if cap.usedQuestions.card > 8 then { cur with usedQuestions := ∅ } else cur)
  | _ => none

/-! ## `sendMessage` -/

/-- `messageText || inputValue.trim()`. -/
def messageToSend (s : State) (messageText : Option String) : String :=
  match messageText with
  | some t => if t = "" then trim s.inputValue else t
  | none => trim s.inputValue

/-- The text of the fallback reply built in the `catch` block. -/
def fallbackResponse (messageToSend : String) : String :=
  let msg := toLowerCase messageToSend
  connectivityPreface ++
  (if includes msg "service" || includes msg "offer" || includes msg "do" then
    servicesBlurb
  else if includes msg "contact" || includes msg "reach" || includes msg "call" then
    contactDetails
  else if includes msg "price" || includes msg "cost" || includes msg "payment" then
    pricingBlurb
  else if includes msg "team" || includes msg "who" then
    teamRoster
  else
    genericApology)

/-- The follow-up questions set in the `catch` block. -/
def fallbackFollowUps : List JSVal :=
  [.str "What services do you offer?", .str "How can I contact your team?",
   .str "What are your pricing plans?", .str "Tell me about your team"]

/-- The part of `sendMessage` before the `await`: the used-question update, the
user message, the input reset and the request.  `msg` is `messageToSend`. -/
def beforeFetch (clk : Clock) (s : State) (messageText : Option String) (msg : String) :
    State × ChatRequest :=
  let s1 : State :=
    match messageText with
    | some t => if t = "" then s else { s with usedQuestions := insert t s.usedQuestions }
    | none => s
  ({ s1 with
      messages := s1.messages ++ [userMessage clk msg]
      inputValue := ""
      isTyping := true
      showSuggestions := false },
   { message := msg
     conversationHistory := s.messages.drop (s.messages.length - 4)
     usedQuestions := s.usedQuestions
     conversationContext := s.conversationContext })

/-- The `try` block after the `await`.  The last component is `true` when an
exception leaves the block; the updates queued before it stay in the state. -/
def tryBlock (clk : Clock) (cap cur : State) (msg : String) (r : FetchResult) :
    State × List Effect × Bool :=
  match r with
  | .networkError => (cur, [], true)
  | .response status body =>
    if !responseOk status then (cur, [], true) else
    match body with
    | none => (cur, [], true)
    | some data =>
      match getProp data "success" with
      | none => (cur, [], true)
      | some success =>
        if !truthy success then (cur, [], true) else
        match (getProp data "data").bind (fun d => (getProp d "answer").map (fun a => (d, a))) with
        | none => (cur, [], true)
        | some (d, answer) =>
          let botMessage := replyMessage clk answer ((getProp d "matchedFAQ").getD .undefined)
          let cur1 := { cur with messages := cur.messages ++ [botMessage] }
          let speak : List Effect := if cap.isVoiceEnabled then [.speakLater 500 answer] else []
          let followUps := (getProp d "followUpQuestions").getD .undefined
          if truthy followUps then
            match followUps with
            | .arr qs =>
              let freshQuestions := qs.filter (fun q => !has cap.usedQuestions q)
              let cur2 := { cur1 with followUpQuestions := freshQuestions, showSuggestions := false }
              match updateConversationContext toLowerCase cap cur2 answer msg with
              | none => (cur2, [], true)
              | some cur3 => (cur3, speak, false)
            | _ => (cur1, [], true)
          else (cur1, speak, false)

/-- The `botMessage` object of the `catch` block. -/
def fallbackMessage (clk : Clock) (msg : String) : Message :=
  { id := clk.fallbackNow + 1, type := .bot, content := .str (fallbackResponse toLowerCase msg),
    timestamp := clk.fallbackTime }

/-- The `catch` block: the fallback reply and the fixed follow-up questions. -/
def catchBlock (clk : Clock) (cur : State) (msg : String) : State :=
  { cur with
    messages := cur.messages ++ [fallbackMessage toLowerCase clk msg]
    followUpQuestions := fallbackFollowUps }

/-- The part of `sendMessage` after the `await`: `try`, `catch`, `finally`. -/
def afterFetch (clk : Clock) (cap cur : State) (msg : String) (r : FetchResult) :
    State × List Effect :=
  let (cur1, effects, threw) := tryBlock toLowerCase clk cap cur msg r
  let cur2 := if threw then catchBlock toLowerCase clk cur1 msg else cur1
  ({ cur2 with isTyping := false }, effects)

/-- One completed call `sendMessage(messageText)` in state `s`, the awaited
`fetch` ending as `r`: the state afterwards and the effects issued. -/
def sendMessage (clk : Clock) (s : State) (messageText : Option String) (r : FetchResult) :
    State × List Effect :=
  let msg := messageToSend s messageText
  if msg = "" then (s, []) else
  let (cur, req) := beforeFetch clk s messageText msg
  let (s', effects) := afterFetch toLowerCase clk s cur msg r
  (s', .fetchChat req :: effects)

/-! ## The session -/

/-- The welcome message the mount effect seeds `messages` with. -/
def welcomeMessage (companyName time : String) : Message :=
  { id := 1, type := .bot,
    content := .str ("Hi! I'm Genie, your AI assistant from " ++ companyName ++
      ". I'm here to help answer any questions about our services, pricing, or how we can help your business. What would you like to know?"),
    timestamp := time }

/-- The state of a freshly mounted widget once its effects have run: the
`useState` initial values, the welcome message, and `pool`, the suggested
questions the preload stored.  The speech engines are `null`, their `useState`
value. -/
def initialState (companyName time : String) (pool : List JSVal) : State :=
  { isOpen := false
    messages := [welcomeMessage companyName time]
    inputValue := ""
    isTyping := false
    suggestedQuestions := .arr pool
    showSuggestions := true
    followUpQuestions := []
    usedQuestions := ∅
    conversationContext := .initial
    isListening := false
    isVoiceEnabled := true
    isSpeaking := false }

/-- `toggleChat`. -/
def toggleChat (s : State) : State :=
  { s with isOpen := !s.isOpen }

/-- The initial suggestion chips on screen, for a pool that is an array; any
other pool shows none. -/
def suggestionChips (s : State) : List JSVal :=
  match s.suggestedQuestions with
  | .arr pool =>
    if s.showSuggestions && decide (s.messages.length ≤ 1) && decide (pool.length > 0) then
      pool.take 4
    else []
  | _ => []

/-- The follow-up chips on screen. -/
def followUpChips (s : State) : List JSVal :=
  if !s.showSuggestions && decide (s.followUpQuestions.length > 0) && !s.isTyping then
    s.followUpQuestions
  else []

/-- The states a session reaches by opening or closing the panel and by
completed turns: a typed text sent from the input box, or a click on a chip
that is on screen. -/
inductive Reachable (companyName time : String) (pool : List JSVal) : State → Prop where
  | init : Reachable companyName time pool (initialState companyName time pool)
  | toggle {s : State} : Reachable companyName time pool s →
      Reachable companyName time pool (toggleChat s)
  | typed {s : State} (text : String) (clk : Clock) (r : FetchResult) :
      Reachable companyName time pool s → s.isOpen = true →
      Reachable companyName time pool
        (sendMessage toLowerCase clk { s with inputValue := text } none r).1
  | chip {s : State} (q : String) (clk : Clock) (r : FetchResult) :
      Reachable companyName time pool s → s.isOpen = true →
      JSVal.str q ∈ suggestionChips s ++ followUpChips s →
      Reachable companyName time pool (sendMessage toLowerCase clk s (some q) r).1

end Handlers

/-! ## Outcomes of the chat call -/

/-- The turn fails: the fetch rejects, the status is not OK, the body cannot be
read, or the body has no truthy `success` (a `null` body included). -/
def failed : FetchResult → Bool
  | .networkError => true
  | .response status body =>
    !responseOk status ||
    match body with
    | none => true
    | some data => !truthy ((getProp data "success").getD .undefined)

/-- For an OK response with a truthy `success` and a `data` that can be read:
the pair `data.data.answer`, `data.data.followUpQuestions`. -/
def successReply : FetchResult → Option (JSVal × JSVal)
  | .networkError => none
  | .response _ none => none
  | .response status (some data) =>
    if responseOk status && truthy ((getProp data "success").getD .undefined) then
      (getProp data "data").bind fun d =>
        (getProp d "answer").map fun a => (a, (getProp d "followUpQuestions").getD .undefined)
    else none

/-- For the same responses: `data.data.matchedFAQ`. -/
def successFAQ : FetchResult → JSVal
  | .response _ (some data) =>
    (((getProp data "data").bind fun d => getProp d "matchedFAQ")).getD .undefined
  | _ => .undefined

/-- The value is an array. -/
def isArray : JSVal → Bool
  | .arr _ => true
  | _ => false

/-- The value is a string. -/
def isString : JSVal → Bool
  | .str _ => true
  | _ => false

/-- The response is a success whose `followUpQuestions` is truthy and either is
not an array (`filter` is missing) or stands beside an `answer` that is not a
string (`toLowerCase` is missing): the handler throws after the reply was
appended. -/
def throwsAfterReply (r : FetchResult) : Bool :=
  match successReply r with
  | some (answer, followUps) => truthy followUps && !(isArray followUps && isString answer)
  | none => false

/-! ## The rule tables as the specification words them -/

/-- First match over an ordered table of keyword groups. -/
def firstMatch {α : Type} (table : List (List String × α)) (dflt : α) (lowered : String) : α :=
  ((table.find? fun g => g.1.any (includes lowered)).map (·.2)).getD dflt

/-- The specification's ordered keyword groups of the context classifier. -/
def specContextGroups : List (List String × ConversationContext) :=
  [(["call", "contact", "email"], .contact_phase),
   (["pricing", "cost", "investment"], .pricing_phase),
   (["result", "%", "growth"], .results_phase),
   (["team", "binoli", "darshan"], .team_phase),
   (["process", "discover", "build"], .process_phase)]

/-- The specification's classifier: first match wins, else `general`. -/
def specReclassify (lowered : String) : ConversationContext :=
  firstMatch specContextGroups .general lowered

/-- The specification's fallback rule table. -/
def specFallbackRules : List (List String × String) :=
  [(["service", "offer"], servicesBlurb),
   (["contact", "reach", "call"], contactDetails),
   (["price", "cost", "payment"], pricingBlurb),
   (["team", "who"], teamRoster)]

/-- The fallback rule table with `do` in the first group. -/
def amendedFallbackRules : List (List String × String) :=
  [(["service", "offer", "do"], servicesBlurb),
   (["contact", "reach", "call"], contactDetails),
   (["price", "cost", "payment"], pricingBlurb),
   (["team", "who"], teamRoster)]

/-- The reply a rule table gives for a lower-cased text. -/
def tableReply (table : List (List String × String)) (lowered : String) : String :=
  connectivityPreface ++ firstMatch table genericApology lowered

/-! ## Concrete inputs -/

/-- A clock for the examples. -/
def demoClock : Clock :=
  { userNow := 1000, userTime := "10:00", replyNow := 2000, replyTime := "10:00",
    fallbackNow := 2000, fallbackTime := "10:00" }

/-- A fresh session with the panel open and no suggested questions. -/
def demoState : State :=
  toggleChat (initialState "ZooTechX" "10:00" [])

/-- An OK response with the given `data` object. -/
def okResponse (data : List (String × JSVal)) : FetchResult :=
  .response 200 (some (.obj [("success", .bool true), ("data", .obj data)]))

/-- The session of the pricing scenario: `Contact us?` is a used question and
`Pricing?` is in the input box. -/
def usedContactState : State :=
  { demoState with inputValue := "Pricing?", usedQuestions := {"Contact us?"} }

/-- The response of the pricing scenario. -/
def pricingResponse : FetchResult :=
  okResponse [("answer", .str "Our pricing..."),
    ("followUpQuestions", .arr [.str "Contact us?", .str "Team info?"])]

/-- A fresh session after the text `hello` was typed and sent with the API
unreachable: the four fallback chips are on screen. -/
def afterFailedHello : State :=
  (sendMessage asciiLower demoClock { demoState with inputValue := "hello" } none
    .networkError).1

/-- That session after a click on the chip `What services do you offer?`, the
API still unreachable. -/
def afterFailedChip : State :=
  (sendMessage asciiLower demoClock afterFailedHello (some "What services do you offer?")
    .networkError).1

/-- Nine used questions. -/
def nineQuestions : Finset String :=
  {"q1", "q2", "q3", "q4", "q5", "q6", "q7", "q8", "q9"}

/-- A fresh session holding nine used questions, `How much?` in the input box. -/
def nineUsedState : State :=
  { demoState with inputValue := "How much?", usedQuestions := nineQuestions }

/-- A successful response with an answer and no follow-up questions. -/
def answerOnlyResponse : FetchResult :=
  okResponse [("answer", .str "Our pricing...")]

/-! ## `loadCompanyData` -/

/-- The suggested questions set in the `catch` block of `loadCompanyData`. -/
def fallbackSuggestions : JSVal :=
  .arr [.str "What services do you offer?", .str "How can I contact your team?",
    .str "What results can I expect?", .str "How much do your solutions cost?",
    .str "Can you help with my project?"]

/-- `loadCompanyData`, the awaited `fetch` of `/api/company-info` ending as
`r`.  An OK response stores `data.data.suggestedQuestions || []`; a rejected
fetch, a body that cannot be read and a `TypeError` on the way to the field
reach the `catch` block; a response that is not OK matches no branch. -/
def loadCompanyData (s : State) (r : FetchResult) : State × List Effect :=
  match r with
  | .networkError => ({ s with suggestedQuestions := fallbackSuggestions }, [])
  | .response status body =>
    if responseOk status then
      match body with
      | none => ({ s with suggestedQuestions := fallbackSuggestions }, [])
      | some data =>
        match (getProp data "data").bind (fun d => getProp d "suggestedQuestions") with
        | none => ({ s with suggestedQuestions := fallbackSuggestions }, [])
        | some v => ({ s with suggestedQuestions := if truthy v then v else .arr [] }, [])
    else (s, [])

/-! ## Voice input -/

/-- What the browser does during one `handleVoiceInput` call: whether
`navigator.mediaDevices.getUserMedia` exists, whether the microphone request
resolves, and whether `recognition.start()` throws. -/
structure VoiceEnv where
  mediaDevices : Bool
  micGranted : Bool
  startThrows : Bool

/-- `handleVoiceInput`. -/
def handleVoiceInput (env : VoiceEnv) (s : State) : State × List Effect :=
  if !s.recognition then
    (s, [.alert "Voice recognition is not supported in your browser or requires HTTPS."])
  else if s.isListening then
    (s, [.recognitionStop])
  else if env.mediaDevices && !env.micGranted then
    (s, [.getUserMedia, .alert "Please allow microphone access to use voice input."])
  else
    let asked : List Effect := if env.mediaDevices then [.getUserMedia] else []
    let s1 := { s with inputValue := "" }
    if env.startThrows then (s1, asked ++ [.recognitionStart, .retryStartLater 1000])
    else (s1, asked ++ [.recognitionStart])

/-! ## Voice output -/

/-- The characters `.` of a regular expression does not match. -/
def isLineTerminator (c : Char) : Bool :=
  c.toNat == 10 || c.toNat == 13 || c.toNat == 8232 || c.toNat == 8233

/-- The lazy group `(.*?)` followed by the closing marker, matched at the start
of the list: the captured text and what follows the marker, or `none` when a
line terminator or the end comes first. -/
def lazyUntil (close : List Char) : List Char → Option (List Char × List Char)
  | [] => if close.isEmpty then some ([], []) else none
  | c :: cs =>
    if close.isPrefixOf (c :: cs) then some ([], (c :: cs).drop close.length)
    else if isLineTerminator c then none
    else (lazyUntil close cs).map fun p => (c :: p.1, p.2)

/-- The scan of `replace(/M(.*?)M/g, '$1')` for the marker `M` made of `*`
followed by `more`, with a bound on the number of steps: from the left, a
marker that is closed by a later marker with no line terminator in between is
removed together with the closing marker and the text between them is kept;
any other character is kept.  Every step consumes a character, so the length of
the text is bound enough. -/
def replacePairsFuel (more : List Char) : Nat → List Char → List Char
  | 0, l => l
  | _ + 1, [] => []
  | n + 1, c :: cs =>
    if ('*' :: more).isPrefixOf (c :: cs) then
      match lazyUntil ('*' :: more) (cs.drop more.length) with
      | some (content, rest) => content ++ replacePairsFuel more n rest
      | none => c :: replacePairsFuel more n cs
    else c :: replacePairsFuel more n cs

/-- `replace(/M(.*?)M/g, '$1')` for the marker `M` made of `*` followed by
`more`. -/
def replacePairs (more : List Char) (l : List Char) : List Char :=
  replacePairsFuel more l.length l

/-- `cleanText` of `speakText`: the two emphasis replacements, newlines to
blanks, then the characters `#`, `*` and the backquote removed. -/
def cleanText (text : String) : String :=
  let noBold := replacePairs ['*'] text.data
  let noItalic := replacePairs [] noBold
  let oneLine := noItalic.map fun c => if c = '\n' then ' ' else c
  ⟨oneLine.filter fun c => !(c = '#' || c = '*' || c = Char.ofNat 96)⟩

/-- `s.startsWith(start)` of JavaScript. -/
def startsWith (s start : String) : Bool :=
  start.data.isPrefixOf s.data

/-- The first test of the voice search in `speakText`. -/
def isMaleVoice (voice : Voice) : Bool :=
  includes voice.name "Male" || includes voice.name "Daniel" || includes voice.name "Alex" ||
  includes voice.name "Tom" || includes voice.name "James" || includes voice.name "David" ||
  (startsWith voice.lang "en" &&
    (includes voice.name "Google" || includes voice.name "Microsoft"))

/-- The `maleVoice` of `speakText`: `voices.find(..) || voices.find(..)`. -/
def maleVoice (voices : List Voice) : Option Voice :=
  match voices.find? isMaleVoice with
  | some v => some v
  | none => voices.find? fun voice => startsWith voice.lang "en"

/-- `speakText(text)` with `voices` what `getVoices()` returns. -/
def speakText (voices : List Voice) (s : State) (text : String) : State × List Effect :=
  if !s.speechSynthesis || !s.isVoiceEnabled then (s, [])
  else
    (s, [.synthesisCancel,
      .synthesisSpeak
        { text := cleanText text, voice := maleVoice voices, rate := 9 / 10, pitch := 8 / 10,
          volume := 8 / 10 }])

/-- `toggleVoiceOutput`.  With `isSpeaking` set and no engine in the state,
`speechSynthesis.cancel()` throws after the first update was queued. -/
def toggleVoiceOutput (s : State) : State × List Effect :=
  let s1 := { s with isVoiceEnabled := !s.isVoiceEnabled }
  if s.isSpeaking then
    if s.speechSynthesis then ({ s1 with isSpeaking := false }, [.synthesisCancel])
    else (s1, [])
  else (s1, [])

/-- `speakMessage(text)`, the speaker button of a bot message: both branches
of its test call `speakText(text)`. -/
def speakMessage (voices : List Voice) (s : State) (text : String) : State × List Effect :=
  if !s.isVoiceEnabled then speakText voices s text
  else speakText voices s text

/-! ## `formatMessage` -/

/-- The code points of the character class of the first replacement. -/
def isListedEmoji (c : Char) : Bool :=
  (0x1F600 ≤ c.toNat && c.toNat ≤ 0x1F64F) || (0x1F300 ≤ c.toNat && c.toNat ≤ 0x1F5FF) ||
  (0x1F680 ≤ c.toNat && c.toNat ≤ 0x1F6FF) || (0x1F1E0 ≤ c.toNat && c.toNat ≤ 0x1F1FF) ||
  (0x2600 ≤ c.toNat && c.toNat ≤ 0x26FF) || (0x2700 ≤ c.toNat && c.toNat ≤ 0x27BF)

/-- The scan of `replace(/\*\*(.*?)\*\*/g, '<strong>$1</strong>')`, with a bound
on the number of steps. -/
def strongFuel : Nat → List Char → List Char
  | 0, l => l
  | _ + 1, [] => []
  | n + 1, c :: cs =>
    if ['*', '*'].isPrefixOf (c :: cs) then
      match lazyUntil ['*', '*'] (cs.drop 1) with
      | some (content, rest) =>
        "<strong>".data ++ content ++ "</strong>".data ++ strongFuel n rest
      | none => c :: strongFuel n cs
    else c :: strongFuel n cs

/-- The scan of `replace(/^•\s+/gm, '• ')`, with a bound on the number of
steps.  `lineStart` says that `^` matches here: the text starts here or the
character before is a line terminator.  A bullet at a line start with white
space after it is rewritten with the whole run of white space as one blank. -/
def bulletsFuel : Nat → Bool → List Char → List Char
  | 0, _, l => l
  | _ + 1, _, [] => []
  | n + 1, lineStart, c :: cs =>
    if lineStart && c == '•' then
      match cs.takeWhile isWhiteSpace with
      | [] => c :: bulletsFuel n false cs
      | w :: ws =>
        '•' :: ' ' ::
          bulletsFuel n (isLineTerminator ((w :: ws).getLastD w)) (cs.dropWhile isWhiteSpace)
    else c :: bulletsFuel n (isLineTerminator c) cs

/-- The text after an optional `.`. -/
def skipDot : List Char → List Char
  | '.' :: cs => cs
  | cs => cs

/-- The scan of `replace(/^(\d+)\.?\s+/gm, '$1. ')`, with a bound on the number
of steps: digits at a line start, an optional `.` and a run of white space are
rewritten as the digits, a `.` and one blank. -/
def numbersFuel : Nat → Bool → List Char → List Char
  | 0, _, l => l
  | _ + 1, _, [] => []
  | n + 1, lineStart, c :: cs =>
    if lineStart && c.isDigit then
      let digits := c :: cs.takeWhile Char.isDigit
      let afterDot := skipDot (cs.dropWhile Char.isDigit)
      match afterDot.takeWhile isWhiteSpace with
      | [] => c :: numbersFuel n false cs
      | w :: ws =>
        digits ++ '.' :: ' ' ::
          numbersFuel n (isLineTerminator ((w :: ws).getLastD w))
            (afterDot.dropWhile isWhiteSpace)
    else c :: numbersFuel n (isLineTerminator c) cs

/-- What follows the last newline of a run of white space. -/
def afterLastNewline (ws : List Char) : List Char :=
  (ws.reverse.takeWhile fun c => c != '\n').reverse

/-- The scan of `replace(/\n\s*\n/g, '\n')`, with a bound on the number of
steps: a newline, and the white space after it up to its last newline, become
one newline. -/
def blankLinesFuel : Nat → List Char → List Char
  | 0, l => l
  | _ + 1, [] => []
  | n + 1, c :: cs =>
    if c == '\n' && (cs.takeWhile isWhiteSpace).contains '\n' then
      '\n' :: blankLinesFuel n
        (afterLastNewline (cs.takeWhile isWhiteSpace) ++ cs.dropWhile isWhiteSpace)
    else c :: blankLinesFuel n cs

/-- `formatMessage(content)`.  Every scan consumes a character in each step,
so the length of its input is bound enough. -/
def formatMessage (content : String) : String :=
  let noEmojis := content.data.filter fun c => !isListedEmoji c
  let formattedBold := strongFuel noEmojis.length noEmojis
  let formattedBullets := bulletsFuel formattedBold.length true formattedBold
  let formattedNumbers := numbersFuel formattedBullets.length true formattedBullets
  let cleaned := blankLinesFuel formattedNumbers.length formattedNumbers
  trim ⟨cleaned⟩

/-- The robot face, U+1F916, followed by ` Hi`. -/
def robotGreeting : String :=
  ⟨[Char.ofNat 0x1F916, ' ', 'H', 'i']⟩

/-- The grinning face, U+1F600, followed by ` Hi`. -/
def grinningGreeting : String :=
  ⟨[Char.ofNat 0x1F600, ' ', 'H', 'i']⟩

/-- A session that holds the synthesis engine, with voice output switched
off. -/
def mutedState : State :=
  { demoState with speechSynthesis := true, isVoiceEnabled := false }

/-! ## Voice input: the engine callback and concrete inputs -/

/-- `recognitionInstance.onstart`, the only place where `isListening` is set to
true. -/
def recognitionOnstart (s : State) : State :=
  { s with isListening := true }

/-- A session that holds the recognition engine and is not listening. -/
def idleVoiceState : State :=
  { demoState with recognition := true }

/-- A session that is listening, with `hel` heard so far in the input box. -/
def listeningVoiceState : State :=
  { demoState with recognition := true, isListening := true, inputValue := "hel" }

/-- A browser that grants the microphone and starts the engine. -/
def grantingBrowser : VoiceEnv :=
  { mediaDevices := true, micGranted := true, startThrows := false }

/-- A browser that grants the microphone and whose engine, already started,
throws on `start()`. -/
def busyBrowser : VoiceEnv :=
  { mediaDevices := true, micGranted := true, startThrows := true }

/-! ## Voice output as the specification words it -/

/-- The text with every `*`, `#` and backquote deleted and every newline
replaced by one blank. -/
def plainText (text : String) : String :=
  ⟨(text.data.filter fun c => !(c = '*' || c = '#' || c = Char.ofNat 96)).map
    fun c => if c = '\n' then ' ' else c⟩

/-- The name hints of the preferred voice. -/
def maleNameHints : List String :=
  ["Male", "Daniel", "Alex", "Tom", "James", "David"]

/-- A preferred voice: its name contains one of the hints, or its language
starts with `en` and its name contains `Google` or `Microsoft`. -/
def isPreferredVoice (voice : Voice) : Bool :=
  maleNameHints.any (includes voice.name) ||
  (startsWith voice.lang "en" && ["Google", "Microsoft"].any (includes voice.name))

/-- Some voices for the examples. -/
def demoVoices : List Voice :=
  [{ name := "Amelie", lang := "fr-CA" }, { name := "Samantha", lang := "en-US" },
   { name := "Google UK English Female", lang := "en-GB" }, { name := "Daniel", lang := "en-GB" }]

end CompanyChatbot

/-! # The embed script `public/embed.js` -/

namespace Embed

/-- The values of `document.readyState`. -/
inductive ReadyState where
  | loading
  | interactive
  | complete
  deriving DecidableEq, Repr

/-- A child of `document.body`, by tag and `id`. -/
structure Element where
  tag : String
  id : String
  deriving DecidableEq, Repr

/-- What one run of `initChatWidget` owns: the flag `isOpen` of its closure and
the inline styles its handlers write. -/
structure Widget where
  isOpen : Bool
  containerDisplay : String
  buttonTransform : String
  containerWidth : String
  containerRight : String
  containerHeight : String
  containerBottom : String
  deriving DecidableEq, Repr

/-- The host page as the script sees and changes it: the global flag, the
ready state, the viewport width, the children of the body, the widgets
initialised, the `click` listeners on the document, the `resize` listeners on
the window, and the `DOMContentLoaded` listeners still waiting. -/
structure Page where
  ZooTechXChatLoaded : Bool
  readyState : ReadyState
  innerWidth : Nat
  body : List Element
  widgets : List Widget
  clickListeners : Nat
  resizeListeners : Nat
  pendingInits : Nat
  deriving DecidableEq

/-- The element `createChatButton` returns. -/
def createChatButton : Element :=
  { tag := "button", id := "zootechx-chat-button" }

/-- The element `createChatContainer` returns. -/
def createChatContainer : Element :=
  { tag := "div", id := "zootechx-chat-container" }

/-- `handleResize`. -/
def handleResize (innerWidth : Nat) (w : Widget) : Widget :=
  if innerWidth < 450 then
    { w with containerWidth := "90vw", containerRight := "5vw", containerHeight := "80vh",
             containerBottom := "80px" }
  else
    { w with containerWidth := "380px", containerRight := "20px", containerHeight := "600px",
             containerBottom := "90px" }

/-- `initChatWidget`: a closed widget with the styles of the two `cssText`s, one
`click` listener on the document, one `resize` listener on the window, the
first `handleResize()`, and the two elements appended to the body. -/
def initChatWidget (p : Page) : Page :=
  let w : Widget :=
    { isOpen := false, containerDisplay := "none", buttonTransform := "",
      containerWidth := "380px", containerRight := "20px", containerHeight := "600px",
      containerBottom := "90px" }
  { p with
    widgets := p.widgets ++ [handleResize p.innerWidth w]
    clickListeners := p.clickListeners + 1
    resizeListeners := p.resizeListeners + 1
    body := p.body ++ [createChatButton, createChatContainer] }

/-- One run of the script. -/
def embedScript (p : Page) : Page :=
  if p.ZooTechXChatLoaded then p
  else
    let p1 := { p with ZooTechXChatLoaded := true }
    if p1.readyState = .loading then { p1 with pendingInits := p1.pendingInits + 1 }
    else initChatWidget p1

/-- The `DOMContentLoaded` event of a loading page: the waiting listeners run. -/
def domContentLoaded (p : Page) : Page :=
  if p.readyState = .loading then
    Nat.iterate initChatWidget p.pendingInits
      { p with readyState := .interactive, pendingInits := 0 }
  else p

/-- Where a click lands: on the button element itself, on the icon nested in
it, in the container, or elsewhere on the page. -/
inductive ClickTarget where
  | button
  | buttonIcon
  | container
  | outside
  deriving DecidableEq, Repr

/-- `button.onclick`. -/
def buttonOnclick (w : Widget) : Widget :=
  let isOpen := !w.isOpen
  { w with
    isOpen := isOpen
    containerDisplay := if isOpen then "block" else "none"
    buttonTransform := if isOpen then "scale(0.9)" else "scale(1)" }

/-- The `click` listener on the document.  `container.contains(e.target)` holds
for a target in the container; `e.target !== button` fails only for the button
element itself. -/
def documentClick (target : ClickTarget) (w : Widget) : Widget :=
  if w.isOpen && !decide (target = .container) && decide (target ≠ .button) then
    { w with isOpen := false, containerDisplay := "none", buttonTransform := "scale(1)" }
  else w

/-- One click, all handlers run: the event bubbles from its target, through the
button when the target is the button or lies in it, up to the document. -/
def click (target : ClickTarget) (w : Widget) : Widget :=
  match target with
  | .button => documentClick .button (buttonOnclick w)
  | .buttonIcon => documentClick .buttonIcon (buttonOnclick w)
  | t => documentClick t w

/-- A page that has not seen the script: no flag, no widget, no listener, and
`host`, the elements of the page itself. -/
def freshPage (readyState : ReadyState) (innerWidth : Nat) (host : List Element) : Page :=
  { ZooTechXChatLoaded := false, readyState := readyState, innerWidth := innerWidth, body := host,
    widgets := [], clickListeners := 0, resizeListeners := 0, pendingInits := 0 }

/-- The widget of a page on which the script ran once, before any click. -/
def closedWidget : Widget :=
  handleResize 1024
    { isOpen := false, containerDisplay := "none", buttonTransform := "",
      containerWidth := "380px", containerRight := "20px", containerHeight := "600px",
      containerBottom := "90px" }

end Embed

namespace CompanyChatbot

/-! ## The handler, case by case -/

/-- The `try` block in terms of the shape of the response. -/
theorem tryBlock_eq (toLowerCase : String → String) (clk : Clock) (cap cur : State)
    (msg : String) (r : FetchResult) :
    tryBlock toLowerCase clk cap cur msg r =
      match successReply r with
      | none => (cur, [], true)
      | some (answer, followUps) =>
        let cur1 := { cur with
          messages := cur.messages ++ [replyMessage clk answer (successFAQ r)] }
        let speak : List Effect := if cap.isVoiceEnabled then [.speakLater 500 answer] else []
        if truthy followUps then
          match followUps with
          | .arr qs =>
            let cur2 := { cur1 with
              followUpQuestions := qs.filter (fun q => !has cap.usedQuestions q)
              showSuggestions := false }
            match updateConversationContext toLowerCase cap cur2 answer msg with
            | none => (cur2, [], true)
            | some cur3 => (cur3, speak, false)
          | _ => (cur1, [], true)
        else (cur1, speak, false) := by
  rcases r with _ | ⟨status, _ | data⟩
  · rfl
  · simp [tryBlock, successReply]
  · cases hok : responseOk status
    · simp [tryBlock, successReply, hok]
    · cases hs : getProp data "success" with
      | none => simp [tryBlock, successReply, hok, hs, truthy]
      | some success =>
        cases ht : truthy success
        · simp [tryBlock, successReply, hok, hs, ht]
        · cases hd : getProp data "data" with
          | none => simp [tryBlock, successReply, hok, hs, ht, hd]
          | some d =>
            cases ha : getProp d "answer" with
            | none => simp [tryBlock, successReply, hok, hs, ht, hd, ha]
            | some a => simp [tryBlock, successReply, successFAQ, hok, hs, ht, hd, ha]

/-- A failed turn has no success reply. -/
theorem successReply_of_failed {r : FetchResult} (h : failed r = true) : successReply r = none := by
  rcases r with _ | ⟨status, _ | data⟩
  · rfl
  · rfl
  · simp only [failed, Bool.or_eq_true, Bool.not_eq_true'] at h
    rcases h with h | h <;> simp [successReply, h]

/-- The messages after a call that sends: the user message, then the reply of
the success path if the response got that far, then the fallback reply if an
exception reached the `catch` block. -/
theorem sendMessage_messages (toLowerCase : String → String) (clk : Clock) (s : State)
    (messageText : Option String) (r : FetchResult) (hmsg : messageToSend s messageText ≠ "") :
    (sendMessage toLowerCase clk s messageText r).1.messages =
      s.messages ++ userMessage clk (messageToSend s messageText) ::
        match successReply r with
        | none => [fallbackMessage toLowerCase clk (messageToSend s messageText)]
        | some (answer, _) =>
          if throwsAfterReply r then
            [replyMessage clk answer (successFAQ r),
             fallbackMessage toLowerCase clk (messageToSend s messageText)]
          else [replyMessage clk answer (successFAQ r)] := by
  have hb : (beforeFetch clk s messageText (messageToSend s messageText)).1.messages =
      s.messages ++ [userMessage clk (messageToSend s messageText)] := by
    unfold beforeFetch
    rcases messageText with _ | t
    · rfl
    · by_cases ht : t = "" <;> simp [ht]
  rcases hsr : successReply r with _ | ⟨answer, followUps⟩
  · simp [sendMessage, hmsg, afterFetch, tryBlock_eq, hsr, catchBlock, hb]
  · cases htf : truthy followUps
    · simp [sendMessage, hmsg, afterFetch, tryBlock_eq, throwsAfterReply, hsr, htf, hb]
    · cases followUps <;> cases answer <;>
        simp_all [sendMessage, afterFetch, tryBlock_eq, throwsAfterReply, catchBlock,
          isArray, isString, updateConversationContext, truthy]
      split <;> rfl


/-- A call whose response never reaches the reply (`successReply` is `none`)
runs the `catch` block on the state left by the first half. -/
theorem sendMessage_of_no_reply (toLowerCase : String → String) (clk : Clock) (s : State)
    (messageText : Option String) (r : FetchResult) (hmsg : messageToSend s messageText ≠ "")
    (hr : successReply r = none) :
    sendMessage toLowerCase clk s messageText r =
      ({ catchBlock toLowerCase clk
            (beforeFetch clk s messageText (messageToSend s messageText)).1
            (messageToSend s messageText) with isTyping := false },
       [.fetchChat (beforeFetch clk s messageText (messageToSend s messageText)).2]) := by
  simp [sendMessage, hmsg, afterFetch, tryBlock_eq, hr]

/-- A successful call whose reply has a string `answer` and an array of
follow-up questions. -/
theorem sendMessage_of_followUps (toLowerCase : String → String) (clk : Clock) (s : State)
    (messageText : Option String) (r : FetchResult) (a : String) (qs : List JSVal)
    (hmsg : messageToSend s messageText ≠ "")
    (hr : successReply r = some (.str a, .arr qs)) :
    (sendMessage toLowerCase clk s messageText r).1 =
      { (beforeFetch clk s messageText (messageToSend s messageText)).1 with
        messages := (beforeFetch clk s messageText (messageToSend s messageText)).1.messages ++
          [replyMessage clk (.str a) (successFAQ r)]
        followUpQuestions := qs.filter (fun q => !has s.usedQuestions q)
        showSuggestions := false
        conversationContext := contextOf (toLowerCase a)
        usedQuestions :=
          if 8 < s.usedQuestions.card then ∅
          else (beforeFetch clk s messageText (messageToSend s messageText)).1.usedQuestions
        isTyping := false } := by
  simp only [sendMessage, hmsg, if_false, afterFetch, tryBlock_eq, hr, truthy,
    updateConversationContext]
  by_cases h8 : 8 < s.usedQuestions.card <;> simp [h8]

/-- A successful call whose reply has no truthy `followUpQuestions`. -/
theorem sendMessage_of_no_followUps (toLowerCase : String → String) (clk : Clock) (s : State)
    (messageText : Option String) (r : FetchResult) (answer followUps : JSVal)
    (hmsg : messageToSend s messageText ≠ "")
    (hr : successReply r = some (answer, followUps)) (hf : truthy followUps = false) :
    (sendMessage toLowerCase clk s messageText r).1 =
      { (beforeFetch clk s messageText (messageToSend s messageText)).1 with
        messages := (beforeFetch clk s messageText (messageToSend s messageText)).1.messages ++
          [replyMessage clk answer (successFAQ r)]
        isTyping := false } := by
  simp [sendMessage, hmsg, afterFetch, tryBlock_eq, hr, hf]

/-- The used questions the first half of `sendMessage` leaves. -/
theorem beforeFetch_usedQuestions (clk : Clock) (s : State) (messageText : Option String)
    (msg : String) :
    (beforeFetch clk s messageText msg).1.usedQuestions =
      match messageText with
      | some t => if t = "" then s.usedQuestions else insert t s.usedQuestions
      | none => s.usedQuestions := by
  unfold beforeFetch
  rcases messageText with _ | t
  · rfl
  · by_cases ht : t = "" <;> simp [ht]

/-- The used questions after any call: those the first half left, or the empty
set, and the latter only when the captured set had more than 8 members. -/
theorem sendMessage_usedQuestions (toLowerCase : String → String) (clk : Clock) (s : State)
    (messageText : Option String) (r : FetchResult) :
    (sendMessage toLowerCase clk s messageText r).1.usedQuestions =
        (beforeFetch clk s messageText (messageToSend s messageText)).1.usedQuestions ∨
      ((sendMessage toLowerCase clk s messageText r).1.usedQuestions = ∅ ∧
        8 < s.usedQuestions.card) := by
  by_cases hmsg : messageToSend s messageText = ""
  · left
    have hs : (sendMessage toLowerCase clk s messageText r).1 = s := by simp [sendMessage, hmsg]
    rw [hs, beforeFetch_usedQuestions]
    rcases messageText with _ | t
    · rfl
    · by_cases ht : t = ""
      · simp [ht]
      · simp [messageToSend, ht] at hmsg
  · rcases hsr : successReply r with _ | ⟨answer, followUps⟩
    · left
      rw [sendMessage_of_no_reply toLowerCase clk s messageText r hmsg hsr]
      rfl
    · cases htf : truthy followUps
      · left
        rw [sendMessage_of_no_followUps toLowerCase clk s messageText r answer followUps hmsg hsr htf]
      · cases followUps <;> cases answer <;>
          simp_all [sendMessage, afterFetch, tryBlock_eq, catchBlock, updateConversationContext,
            truthy]
        by_cases h8 : 8 < s.usedQuestions.card <;> simp [h8]

/-! ## C1: messages appended by one call -/

/-- C1, as stated, fails: the text `Hello` is typed into a fresh session and
the API answers 200 with `success: true`, an answer and a `followUpQuestions`
that is a string instead of an array.  The reply is appended, `filter` then
throws, and the `catch` block appends the fallback reply as well: the call adds
three messages, a user message and two bot messages. -/
theorem sendMessage_reply_and_fallback :
    trim "Hello" ≠ "" ∧
    (sendMessage asciiLower demoClock { demoState with inputValue := "Hello" } none
        (okResponse [("answer", .str "Hi there!"),
          ("followUpQuestions", .str "Team info?")])).1.messages.map (fun m => m.type) =
      demoState.messages.map (fun m => m.type) ++ [.user, .bot, .bot] := by
  decide

/-- C1 (amended): for every session state, every text to send that is not
empty, and every outcome of the chat call other than a success body that makes
the handler throw after the reply was appended (`throwsAfterReply`), one
completed `sendMessage` call extends the message list by exactly two entries:
the user message whose content is the sent text, then one bot message; the
earlier messages are kept as a prefix. -/
theorem sendMessage_appends_user_then_bot (toLowerCase : String → String) (clk : Clock)
    (s : State) (messageText : Option String) (r : FetchResult)
    (hmsg : messageToSend s messageText ≠ "") (hr : throwsAfterReply r = false) :
    ∃ u b : Message,
      (sendMessage toLowerCase clk s messageText r).1.messages = s.messages ++ [u, b] ∧
      u.type = .user ∧ u.content = .str (messageToSend s messageText) ∧ b.type = .bot := by
  rw [sendMessage_messages toLowerCase clk s messageText r hmsg]
  rcases hsr : successReply r with _ | ⟨answer, followUps⟩
  · exact ⟨_, _, rfl, rfl, rfl, rfl⟩
  · simp only [hr]
    exact ⟨_, _, rfl, rfl, rfl, rfl⟩

/-- Witness of C1 (amended): `Hello` typed into a fresh session, the API
unreachable. -/
theorem sendMessage_appends_user_then_bot_witness :
    messageToSend { demoState with inputValue := "Hello" } none ≠ "" ∧
    throwsAfterReply .networkError = false ∧
    ∃ u b : Message,
      (sendMessage asciiLower demoClock { demoState with inputValue := "Hello" } none
        .networkError).1.messages = ({ demoState with inputValue := "Hello" } : State).messages ++ [u, b] ∧
      u.type = .user ∧
      u.content = .str (messageToSend { demoState with inputValue := "Hello" } none) ∧
      b.type = .bot :=
  ⟨by decide, rfl,
    sendMessage_appends_user_then_bot asciiLower demoClock { demoState with inputValue := "Hello" }
      none .networkError (by decide) rfl⟩

/-! ## C2: blank input -/

/-- C2, as stated, fails: a text of one blank passed directly to `sendMessage`
is not rejected.  It is recorded as a used question, two messages are appended,
the suggestions are hidden and the chat API is called. -/
theorem sendMessage_blank_chip_is_sent :
    trim " " = "" ∧
    (sendMessage asciiLower demoClock demoState (some " ") .networkError).1.messages.length =
      demoState.messages.length + 2 ∧
    " " ∈ (sendMessage asciiLower demoClock demoState (some " ") .networkError).1.usedQuestions ∧
    " " ∉ demoState.usedQuestions ∧
    demoState.showSuggestions = true ∧
    (sendMessage asciiLower demoClock demoState (some " ") .networkError).1.showSuggestions = false ∧
    (sendMessage asciiLower demoClock demoState (some " ") .networkError).2.length = 1 := by
  decide

/-- C2 (amended): when no text is passed directly (`null`, or the empty string)
and the typed input value is empty or only white space, `sendMessage` is a
no-op: the whole state, with `messages`, `usedQuestions`, `isTyping`,
`showSuggestions` and `followUpQuestions`, is unchanged and no effect, so no
chat API call, is issued. -/
theorem sendMessage_noop_of_blank_input (toLowerCase : String → String) (clk : Clock)
    (s : State) (messageText : Option String) (r : FetchResult)
    (ht : messageText = none ∨ messageText = some "") (hin : trim s.inputValue = "") :
    sendMessage toLowerCase clk s messageText r = (s, []) := by
  have hmsg : messageToSend s messageText = "" := by
    rcases ht with rfl | rfl <;> simp [messageToSend, hin]
  simp [sendMessage, hmsg]

/-- Witness of C2 (amended): blanks and a newline in the input box. -/
theorem sendMessage_noop_of_blank_input_witness :
    ((none : Option String) = none ∨ (none : Option String) = some "") ∧
    trim ({ demoState with inputValue := "  \n " } : State).inputValue = "" ∧
    sendMessage asciiLower demoClock { demoState with inputValue := "  \n " } none .networkError =
      ({ demoState with inputValue := "  \n " }, []) :=
  ⟨Or.inl rfl, by decide,
    sendMessage_noop_of_blank_input asciiLower demoClock { demoState with inputValue := "  \n " }
      none .networkError (Or.inl rfl) (by decide)⟩

/-! ## C3: follow-up questions of a successful turn -/

/-- C3: for every successful turn whose response carries the follow-up list
`L`, sent while `usedQuestions` holds `U`, the follow-up list after the turn is
`L` with every member of `U` removed, in the order of `L`, hence a sub-list of
`L`. -/
theorem followUps_are_fresh_questions (toLowerCase : String → String) (clk : Clock) (s : State)
    (messageText : Option String) (r : FetchResult) (a : String) (L : List String)
    (hmsg : messageToSend s messageText ≠ "")
    (hr : successReply r = some (.str a, .arr (L.map .str))) :
    (sendMessage toLowerCase clk s messageText r).1.followUpQuestions =
        (L.filter (fun q => decide (q ∉ s.usedQuestions))).map .str ∧
    List.Sublist (L.filter (fun q => decide (q ∉ s.usedQuestions))) L := by
  refine ⟨?_, List.filter_sublist _⟩
  rw [sendMessage_of_followUps toLowerCase clk s messageText r a (L.map .str) hmsg hr]
  simp only [List.filter_map]
  congr 1
  apply List.filter_congr
  intro q _
  simp [has]

/-- Witness of C3: the response lists `Contact us?` and `Team info?` while
`Contact us?` is a used question; only `Team info?` is left. -/
theorem followUps_are_fresh_questions_witness :
    messageToSend usedContactState none ≠ "" ∧
    successReply pricingResponse =
      some (.str "Our pricing...", .arr (["Contact us?", "Team info?"].map .str)) ∧
    (sendMessage asciiLower demoClock usedContactState none pricingResponse).1.followUpQuestions =
      (["Contact us?", "Team info?"].filter
        (fun q => decide (q ∉ usedContactState.usedQuestions))).map .str ∧
    ["Contact us?", "Team info?"].filter
      (fun q => decide (q ∉ usedContactState.usedQuestions)) = ["Team info?"] :=
  ⟨by decide, rfl,
    (followUps_are_fresh_questions asciiLower demoClock usedContactState none pricingResponse
      "Our pricing..." ["Contact us?", "Team info?"] (by decide) rfl).1,
    by decide⟩

/-! ## C4: used questions and the follow-up list -/

/-- C4, as stated, fails: in a fresh session the text `hello` is sent and the
API is unreachable, so the four fallback chips appear; the chip
`What services do you offer?` is clicked and the API is unreachable again.  In
the state reached the clicked question is a used question, and it is an element
of the follow-up list, which is the fixed fallback list once more. -/
theorem used_question_in_followUps :
    ∃ s : State, Reachable asciiLower "ZooTechX" "10:00" [] s ∧
      ∃ q : String, q ∈ s.usedQuestions ∧ JSVal.str q ∈ s.followUpQuestions := by
  refine ⟨afterFailedChip, ?_, "What services do you offer?", by decide, ?_⟩
  · have h0 : Reachable asciiLower "ZooTechX" "10:00" [] demoState := Reachable.toggle Reachable.init
    have h1 : Reachable asciiLower "ZooTechX" "10:00" [] afterFailedHello :=
      Reachable.typed "hello" demoClock .networkError h0 rfl
    exact Reachable.chip "What services do you offer?" demoClock .networkError h1 rfl
      (List.mem_cons_self _ _)
  · exact List.mem_cons_self _ _

/-- C4 (amended): after every successful turn whose response carries a list of
follow-up questions, no question that was a member of `usedQuestions` when the
turn was sent is an element of the follow-up list. -/
theorem followUps_exclude_used_at_send (toLowerCase : String → String) (clk : Clock) (s : State)
    (messageText : Option String) (r : FetchResult) (a : String) (qs : List JSVal)
    (hmsg : messageToSend s messageText ≠ "")
    (hr : successReply r = some (.str a, .arr qs)) :
    ∀ q ∈ s.usedQuestions,
      JSVal.str q ∉ (sendMessage toLowerCase clk s messageText r).1.followUpQuestions := by
  intro q hq hmem
  rw [sendMessage_of_followUps toLowerCase clk s messageText r a qs hmsg hr] at hmem
  simp [has, hq] at hmem

/-- Witness of C4 (amended): the pricing scenario. -/
theorem followUps_exclude_used_at_send_witness :
    messageToSend usedContactState none ≠ "" ∧
    successReply pricingResponse =
      some (.str "Our pricing...", .arr [.str "Contact us?", .str "Team info?"]) ∧
    ∀ q ∈ usedContactState.usedQuestions,
      JSVal.str q ∉
        (sendMessage asciiLower demoClock usedContactState none pricingResponse).1.followUpQuestions :=
  ⟨by decide, rfl,
    followUps_exclude_used_at_send asciiLower demoClock usedContactState none pricingResponse
      "Our pricing..." [.str "Contact us?", .str "Team info?"] (by decide) rfl⟩

/-! ## C5: the context classifier -/

/-- First match on a table whose first group matches. -/
theorem firstMatch_cons_of_match {α : Type} (ks : List String) (v : α)
    (table : List (List String × α)) (dflt : α) (lowered : String)
    (h : ks.any (includes lowered) = true) :
    firstMatch ((ks, v) :: table) dflt lowered = v := by
  simp [firstMatch, List.find?_cons, h]

/-- First match on a table whose first group does not match. -/
theorem firstMatch_cons_of_no_match {α : Type} (ks : List String) (v : α)
    (table : List (List String × α)) (dflt : α) (lowered : String)
    (h : ks.any (includes lowered) = false) :
    firstMatch ((ks, v) :: table) dflt lowered = firstMatch table dflt lowered := by
  simp [firstMatch, List.find?_cons, h]

/-- A group of three keywords matches when one of them occurs. -/
theorem any_three (p : String → Bool) (a b c : String) :
    [a, b, c].any p = (p a || p b || p c) := by
  simp [List.any, Bool.or_assoc]

/-- The `if` chain of `updateConversationContext` is the first match over the
specification's keyword groups. -/
theorem contextOf_eq_specReclassify (response : String) :
    contextOf response = specReclassify response := by
  have mt : ∀ {a b c : String},
      (includes response a || includes response b || includes response c) = true →
      [a, b, c].any (includes response) = true := fun h => by rw [any_three]; exact h
  have nm : ∀ {a b c : String},
      ¬(includes response a || includes response b || includes response c) = true →
      [a, b, c].any (includes response) = false :=
    fun h => by rw [any_three]; exact Bool.eq_false_iff.2 h
  unfold contextOf specReclassify specContextGroups
  split_ifs with h1 h2 h3 h4 h5
  · rw [firstMatch_cons_of_match _ _ _ _ _ (mt h1)]
  · rw [firstMatch_cons_of_no_match _ _ _ _ _ (nm h1),
      firstMatch_cons_of_match _ _ _ _ _ (mt h2)]
  · rw [firstMatch_cons_of_no_match _ _ _ _ _ (nm h1),
      firstMatch_cons_of_no_match _ _ _ _ _ (nm h2),
      firstMatch_cons_of_match _ _ _ _ _ (mt h3)]
  · rw [firstMatch_cons_of_no_match _ _ _ _ _ (nm h1),
      firstMatch_cons_of_no_match _ _ _ _ _ (nm h2),
      firstMatch_cons_of_no_match _ _ _ _ _ (nm h3),
      firstMatch_cons_of_match _ _ _ _ _ (mt h4)]
  · rw [firstMatch_cons_of_no_match _ _ _ _ _ (nm h1),
      firstMatch_cons_of_no_match _ _ _ _ _ (nm h2),
      firstMatch_cons_of_no_match _ _ _ _ _ (nm h3),
      firstMatch_cons_of_no_match _ _ _ _ _ (nm h4),
      firstMatch_cons_of_match _ _ _ _ _ (mt h5)]
  · rw [firstMatch_cons_of_no_match _ _ _ _ _ (nm h1),
      firstMatch_cons_of_no_match _ _ _ _ _ (nm h2),
      firstMatch_cons_of_no_match _ _ _ _ _ (nm h3),
      firstMatch_cons_of_no_match _ _ _ _ _ (nm h4),
      firstMatch_cons_of_no_match _ _ _ _ _ (nm h5)]
    rfl

/-- The first match of a table is the value of the first group with a keyword
in the text. -/
theorem firstMatch_eq_of_first {α : Type} (pre : List (List String × α)) (g : List String × α)
    (post : List (List String × α)) (dflt : α) (lowered : String)
    (hpre : ∀ h ∈ pre, h.1.any (includes lowered) = false)
    (hg : g.1.any (includes lowered) = true) :
    firstMatch (pre ++ g :: post) dflt lowered = g.2 := by
  induction pre with
  | nil => exact firstMatch_cons_of_match g.1 g.2 post dflt lowered hg
  | cons h pre ih =>
    have hh := hpre h (List.mem_cons_self _ _)
    rw [List.cons_append, show h = (h.1, h.2) from rfl, firstMatch_cons_of_no_match _ _ _ _ _ hh]
    exact ih (fun k hk => hpre k (List.mem_cons_of_mem _ hk))

/-- The classifier answers `general` exactly when no keyword of any group
occurs in the text. -/
theorem specReclassify_eq_general_iff (lowered : String) :
    specReclassify lowered = .general ↔
      ∀ g ∈ specContextGroups, ∀ k ∈ g.1, includes lowered k = false := by
  unfold specReclassify firstMatch
  constructor
  · intro h g hg k hk
    cases hf : specContextGroups.find? (fun g => g.1.any (includes lowered)) with
    | none =>
      have := List.find?_eq_none.1 hf g hg
      simp only [List.any_eq_true, not_exists, not_and, Bool.not_eq_true] at this
      exact this k hk
    | some g0 =>
      rw [hf] at h
      have hmem := List.mem_of_find?_eq_some hf
      simp only [Option.map_some', Option.getD_some] at h
      simp only [specContextGroups, List.mem_cons, List.mem_singleton, List.not_mem_nil,
        or_false] at hmem
      rcases hmem with rfl | rfl | rfl | rfl | rfl <;> cases h
  · intro h
    have hf : specContextGroups.find? (fun g => g.1.any (includes lowered)) = none := by
      apply List.find?_eq_none.2
      intro g hg
      simp only [List.any_eq_true, not_exists, not_and, Bool.not_eq_true]
      exact h g hg
    rw [hf]
    rfl

/-- C5: the context classifier of `updateConversationContext` is total on
response texts and gives the tag of the first matching group of the ordered
table call/contact/email, pricing/cost/investment, result/%/growth,
team/binoli/darshan, process/discover/build over the lower-cased text, and
`general` exactly when no keyword of any group occurs.  A text matching several
groups gets the tag of the earliest one, two texts with the same lower-cased
form get the same tag, and `Our pricing...` gives `pricing_phase`. -/
theorem updateConversationContext_first_match (toLowerCase : String → String) :
    (∀ (cap cur : State) (text userMessage : String),
      ∃ s', updateConversationContext toLowerCase cap cur (.str text) userMessage = some s' ∧
        s'.conversationContext = contextOf (toLowerCase text) ∧
        s'.conversationContext = specReclassify (toLowerCase text)) ∧
    (∀ (lowered : String) (pre : List (List String × ConversationContext))
        (g : List String × ConversationContext) (post : List (List String × ConversationContext)),
      specContextGroups = pre ++ g :: post →
      (∀ h ∈ pre, ∀ k ∈ h.1, includes lowered k = false) →
      (∃ k ∈ g.1, includes lowered k = true) → contextOf lowered = g.2) ∧
    (∀ lowered : String, contextOf lowered = .general ↔
      ∀ g ∈ specContextGroups, ∀ k ∈ g.1, includes lowered k = false) ∧
    (∀ t₁ t₂ : String, toLowerCase t₁ = toLowerCase t₂ →
      contextOf (toLowerCase t₁) = contextOf (toLowerCase t₂)) ∧
    contextOf (asciiLower "Our team will email the pricing") = .contact_phase ∧
    contextOf (asciiLower "Our pricing...") = .pricing_phase := by
  refine ⟨?_, ?_, ?_, ?_, by decide, by decide⟩
  · intro cap cur text userMessage
    by_cases h8 : cap.usedQuestions.card > 8
    · exact ⟨_, by simp only [updateConversationContext, h8, if_true]; rfl, rfl,
        contextOf_eq_specReclassify _⟩
    · exact ⟨_, by simp only [updateConversationContext, h8, if_false]; rfl, rfl,
        contextOf_eq_specReclassify _⟩
  · intro lowered pre g post htable hpre hg
    rw [contextOf_eq_specReclassify, specReclassify, htable]
    apply firstMatch_eq_of_first
    · intro h hh
      have := hpre h hh
      simpa using this
    · simpa using hg
  · intro lowered
    rw [contextOf_eq_specReclassify]
    exact specReclassify_eq_general_iff lowered
  · intro t₁ t₂ h
    rw [h]

/-! ## C6, C7, C8: the fallback path -/

/-- A group of two keywords matches when one of them occurs. -/
theorem any_two (p : String → Bool) (a b : String) : [a, b].any p = (p a || p b) := by
  simp [List.any]

/-- The `if` chain of the `catch` block is the first match over the rule table
that has `do` in its first group. -/
theorem fallbackResponse_eq_tableReply (toLowerCase : String → String) (msg : String) :
    fallbackResponse toLowerCase msg = tableReply amendedFallbackRules (toLowerCase msg) := by
  have mt : ∀ {a b c : String},
      (includes (toLowerCase msg) a || includes (toLowerCase msg) b ||
        includes (toLowerCase msg) c) = true →
      [a, b, c].any (includes (toLowerCase msg)) = true := fun h => by rw [any_three]; exact h
  have nm : ∀ {a b c : String},
      ¬(includes (toLowerCase msg) a || includes (toLowerCase msg) b ||
        includes (toLowerCase msg) c) = true →
      [a, b, c].any (includes (toLowerCase msg)) = false :=
    fun h => by rw [any_three]; exact Bool.eq_false_iff.2 h
  have mt2 : ∀ {a b : String},
      (includes (toLowerCase msg) a || includes (toLowerCase msg) b) = true →
      [a, b].any (includes (toLowerCase msg)) = true := fun h => by rw [any_two]; exact h
  have nm2 : ∀ {a b : String},
      ¬(includes (toLowerCase msg) a || includes (toLowerCase msg) b) = true →
      [a, b].any (includes (toLowerCase msg)) = false :=
    fun h => by rw [any_two]; exact Bool.eq_false_iff.2 h
  unfold fallbackResponse tableReply amendedFallbackRules
  dsimp only
  congr 1
  split_ifs with h1 h2 h3 h4
  · rw [firstMatch_cons_of_match _ _ _ _ _ (mt h1)]
  · rw [firstMatch_cons_of_no_match _ _ _ _ _ (nm h1), firstMatch_cons_of_match _ _ _ _ _ (mt h2)]
  · rw [firstMatch_cons_of_no_match _ _ _ _ _ (nm h1), firstMatch_cons_of_no_match _ _ _ _ _ (nm h2),
      firstMatch_cons_of_match _ _ _ _ _ (mt h3)]
  · rw [firstMatch_cons_of_no_match _ _ _ _ _ (nm h1), firstMatch_cons_of_no_match _ _ _ _ _ (nm h2),
      firstMatch_cons_of_no_match _ _ _ _ _ (nm h3), firstMatch_cons_of_match _ _ _ _ _ (mt2 h4)]
  · rw [firstMatch_cons_of_no_match _ _ _ _ _ (nm h1), firstMatch_cons_of_no_match _ _ _ _ _ (nm h2),
      firstMatch_cons_of_no_match _ _ _ _ _ (nm h3), firstMatch_cons_of_no_match _ _ _ _ _ (nm2 h4)]
    rfl

/-- The state and the request of a failed turn. -/
theorem sendMessage_of_failed (toLowerCase : String → String) (clk : Clock) (s : State)
    (messageText : Option String) (r : FetchResult) (hmsg : messageToSend s messageText ≠ "")
    (hfail : failed r = true) :
    (sendMessage toLowerCase clk s messageText r).1.messages =
        s.messages ++ [userMessage clk (messageToSend s messageText),
          fallbackMessage toLowerCase clk (messageToSend s messageText)] ∧
    (sendMessage toLowerCase clk s messageText r).1.followUpQuestions = fallbackFollowUps := by
  constructor
  · rw [sendMessage_messages toLowerCase clk s messageText r hmsg, successReply_of_failed hfail]
  · rw [sendMessage_of_no_reply toLowerCase clk s messageText r hmsg (successReply_of_failed hfail)]
    rfl

/-- C6, as stated, fails: on a failed turn the text `How do I contact you?`
contains `contact` and neither `service` nor `offer`, yet the reply is the
services blurb, not the contact details the specification's table gives,
because the first test of the `catch` block also looks for `do`. -/
theorem fallback_contact_text_gets_services :
    failed .networkError = true ∧
    includes (asciiLower "How do I contact you?") "contact" = true ∧
    includes (asciiLower "How do I contact you?") "service" = false ∧
    includes (asciiLower "How do I contact you?") "offer" = false ∧
    tableReply specFallbackRules (asciiLower "How do I contact you?") =
      connectivityPreface ++ contactDetails ∧
    fallbackResponse asciiLower "How do I contact you?" = connectivityPreface ++ servicesBlurb ∧
    (sendMessage asciiLower demoClock { demoState with inputValue := "How do I contact you?" } none
        .networkError).1.messages.map (fun m => m.content) =
      demoState.messages.map (fun m => m.content) ++
        [.str "How do I contact you?", .str (connectivityPreface ++ servicesBlurb)] := by
  refine ⟨by decide, by decide, by decide, by decide, ?_, ?_, ?_⟩
  · rfl
  · rfl
  · rfl

/-- C6 (amended): for every failed turn the fallback reply is chosen from the
lower-cased outgoing text by the ordered rule table service/offer/do ->
services blurb; contact/reach/call -> contact details; price/cost/payment ->
pricing blurb; team/who -> team roster; otherwise the generic apology with
contact information.  In particular a text that contains `contact` and none of
`service`, `offer` and `do` receives the contact details. -/
theorem fallback_reply_follows_rule_table (toLowerCase : String → String) (clk : Clock)
    (s : State) (messageText : Option String) (r : FetchResult)
    (hmsg : messageToSend s messageText ≠ "") (hfail : failed r = true) :
    (sendMessage toLowerCase clk s messageText r).1.messages =
        s.messages ++ [userMessage clk (messageToSend s messageText),
          { id := clk.fallbackNow + 1, type := .bot,
            content := .str (tableReply amendedFallbackRules
              (toLowerCase (messageToSend s messageText))),
            timestamp := clk.fallbackTime }] ∧
    (includes (toLowerCase (messageToSend s messageText)) "contact" = true →
      includes (toLowerCase (messageToSend s messageText)) "service" = false →
      includes (toLowerCase (messageToSend s messageText)) "offer" = false →
      includes (toLowerCase (messageToSend s messageText)) "do" = false →
      tableReply amendedFallbackRules (toLowerCase (messageToSend s messageText)) =
        connectivityPreface ++ contactDetails) := by
  constructor
  · rw [(sendMessage_of_failed toLowerCase clk s messageText r hmsg hfail).1, fallbackMessage,
      fallbackResponse_eq_tableReply]
  · intro hc hs ho hd
    rw [← fallbackResponse_eq_tableReply]
    simp [fallbackResponse, hc, hs, ho, hd]

/-- Witness of C6 (amended): `Please contact me` typed into a fresh session,
the API unreachable. -/
theorem fallback_reply_follows_rule_table_witness :
    messageToSend { demoState with inputValue := "Please contact me" } none ≠ "" ∧
    failed .networkError = true ∧
    (sendMessage asciiLower demoClock { demoState with inputValue := "Please contact me" } none
        .networkError).1.messages =
      ({ demoState with inputValue := "Please contact me" } : State).messages ++
        [userMessage demoClock (messageToSend { demoState with inputValue := "Please contact me" } none),
          { id := demoClock.fallbackNow + 1, type := .bot,
            content := .str (tableReply amendedFallbackRules
              (asciiLower (messageToSend { demoState with inputValue := "Please contact me" } none))),
            timestamp := demoClock.fallbackTime }] ∧
    tableReply amendedFallbackRules
        (asciiLower (messageToSend { demoState with inputValue := "Please contact me" } none)) =
      connectivityPreface ++ contactDetails :=
  ⟨by decide, by decide,
    (fallback_reply_follows_rule_table asciiLower demoClock
      { demoState with inputValue := "Please contact me" } none .networkError (by decide)
      (by decide)).1,
    (fallback_reply_follows_rule_table asciiLower demoClock
      { demoState with inputValue := "Please contact me" } none .networkError (by decide)
      (by decide)).2 (by decide) (by decide) (by decide) (by decide)⟩

/-- C7: for every failed turn whose lower-cased text contains `service` or
`offer`, the appended bot message has as content the connectivity preface
followed by the services blurb, whatever other keywords the text contains. -/
theorem fallback_services_blurb (toLowerCase : String → String) (clk : Clock) (s : State)
    (messageText : Option String) (r : FetchResult)
    (hmsg : messageToSend s messageText ≠ "") (hfail : failed r = true)
    (hkw : includes (toLowerCase (messageToSend s messageText)) "service" = true ∨
      includes (toLowerCase (messageToSend s messageText)) "offer" = true) :
    (sendMessage toLowerCase clk s messageText r).1.messages =
      s.messages ++ [userMessage clk (messageToSend s messageText),
        { id := clk.fallbackNow + 1, type := .bot,
          content := .str (connectivityPreface ++ servicesBlurb),
          timestamp := clk.fallbackTime }] := by
  rw [(sendMessage_of_failed toLowerCase clk s messageText r hmsg hfail).1, fallbackMessage]
  have : fallbackResponse toLowerCase (messageToSend s messageText) =
      connectivityPreface ++ servicesBlurb := by
    rcases hkw with h | h <;> simp [fallbackResponse, h]
  rw [this]

/-- Witness of C7: the first message `What services do you offer?`, the API
unreachable; the reply is the preface followed by `We offer AI-powered
chatbots, ...`. -/
theorem fallback_services_blurb_witness :
    messageToSend { demoState with inputValue := "What services do you offer?" } none ≠ "" ∧
    failed .networkError = true ∧
    (includes (asciiLower
        (messageToSend { demoState with inputValue := "What services do you offer?" } none))
        "service" = true ∨
      includes (asciiLower
        (messageToSend { demoState with inputValue := "What services do you offer?" } none))
        "offer" = true) ∧
    (sendMessage asciiLower demoClock { demoState with inputValue := "What services do you offer?" }
        none .networkError).1.messages =
      ({ demoState with inputValue := "What services do you offer?" } : State).messages ++
        [userMessage demoClock
            (messageToSend { demoState with inputValue := "What services do you offer?" } none),
          { id := demoClock.fallbackNow + 1, type := .bot,
            content := .str (connectivityPreface ++ servicesBlurb),
            timestamp := demoClock.fallbackTime }] ∧
    connectivityPreface ++ servicesBlurb =
      "I'm experiencing connectivity issues right now. We offer AI-powered chatbots, automation solutions, and premium web development. Our services include smart chatbots, voice AI, automation tools, and custom websites." :=
  ⟨by decide, by decide, Or.inl (by decide),
    fallback_services_blurb asciiLower demoClock
      { demoState with inputValue := "What services do you offer?" } none .networkError
      (by decide) (by decide) (Or.inl (by decide)),
    rfl⟩

/-- C8: a turn that fails because the status is not OK, the fetch throws, or
the body has no truthy `success` is absorbed: the follow-up questions become
the fixed list of four, in order, and the appended bot message is an ordinary
reply with no `isError` property. -/
theorem failed_turn_is_absorbed (toLowerCase : String → String) (clk : Clock) (s : State)
    (messageText : Option String) (r : FetchResult)
    (hmsg : messageToSend s messageText ≠ "") (hfail : failed r = true) :
    (sendMessage toLowerCase clk s messageText r).1.followUpQuestions =
      [.str "What services do you offer?", .str "How can I contact your team?",
       .str "What are your pricing plans?", .str "Tell me about your team"] ∧
    ∃ u b : Message,
      (sendMessage toLowerCase clk s messageText r).1.messages = s.messages ++ [u, b] ∧
      u.type = .user ∧ b.type = .bot ∧ b.isError = none ∧
      b.content = .str (fallbackResponse toLowerCase (messageToSend s messageText)) := by
  obtain ⟨hm, hf⟩ := sendMessage_of_failed toLowerCase clk s messageText r hmsg hfail
  exact ⟨hf, _, _, hm, rfl, rfl, rfl, rfl⟩

/-- Witness of C8: a 500 response to `hello`. -/
theorem failed_turn_is_absorbed_witness :
    messageToSend { demoState with inputValue := "hello" } none ≠ "" ∧
    failed (.response 500 none) = true ∧
    failed .networkError = true ∧
    failed (.response 200 (some (.obj [("success", .bool false)]))) = true ∧
    (sendMessage asciiLower demoClock { demoState with inputValue := "hello" } none
        (.response 500 none)).1.followUpQuestions =
      [.str "What services do you offer?", .str "How can I contact your team?",
       .str "What are your pricing plans?", .str "Tell me about your team"] :=
  ⟨by decide, by decide, by decide, by decide,
    (failed_turn_is_absorbed asciiLower demoClock { demoState with inputValue := "hello" } none
      (.response 500 none) (by decide) (by decide)).1⟩

/-! ## C9, C10: the used questions -/

/-- C9: after any `sendMessage` call the set of used questions is a superset
of the set before the call or is empty, and it is empty with elements lost only
when the set before the call had more than 8 members; no call removes a single
element. -/
theorem usedQuestions_grow_or_reset (toLowerCase : String → String) (clk : Clock) (s : State)
    (messageText : Option String) (r : FetchResult) :
    s.usedQuestions ⊆ (sendMessage toLowerCase clk s messageText r).1.usedQuestions ∨
    ((sendMessage toLowerCase clk s messageText r).1.usedQuestions = ∅ ∧
      8 < s.usedQuestions.card) := by
  rcases sendMessage_usedQuestions toLowerCase clk s messageText r with h | h
  · left
    rw [h, beforeFetch_usedQuestions]
    rcases messageText with _ | t
    · exact Finset.Subset.refl _
    · by_cases ht : t = ""
      · simp [ht]
      · simp only [ht, if_false]
        exact Finset.subset_insert _ _
  · exact Or.inr h

/-- C10, as stated, fails: with nine used questions, a successful response
that carries an answer but no `followUpQuestions` leaves the nine questions in
place and the context at `initial`, although the answer classifies as
`pricing_phase`. -/
theorem reset_skipped_without_followUps :
    8 < nineUsedState.usedQuestions.card ∧
    successReply answerOnlyResponse = some (.str "Our pricing...", .undefined) ∧
    (sendMessage asciiLower demoClock nineUsedState none answerOnlyResponse).1.usedQuestions =
      nineQuestions ∧
    (sendMessage asciiLower demoClock nineUsedState none answerOnlyResponse).1.usedQuestions ≠ ∅ ∧
    (sendMessage asciiLower demoClock nineUsedState none
      answerOnlyResponse).1.conversationContext = .initial ∧
    contextOf (asciiLower "Our pricing...") = .pricing_phase ∧
    (sendMessage asciiLower demoClock nineUsedState none answerOnlyResponse).1.messages.map
        (fun m => m.type) = [.bot, .user, .bot] := by
  refine ⟨by decide, rfl, by decide, by decide, by decide, by decide, by decide⟩

/-- C10 (amended): for every successful turn whose response carries a list of
follow-up questions, if `usedQuestions` held more than 8 questions when the
turn was sent then it is empty after the turn, and the conversation context
after the turn is the classification of the answer text. -/
theorem reset_and_reclassify_with_followUps (toLowerCase : String → String) (clk : Clock)
    (s : State) (messageText : Option String) (r : FetchResult) (a : String) (qs : List JSVal)
    (hmsg : messageToSend s messageText ≠ "")
    (hr : successReply r = some (.str a, .arr qs)) :
    (8 < s.usedQuestions.card →
      (sendMessage toLowerCase clk s messageText r).1.usedQuestions = ∅) ∧
    (sendMessage toLowerCase clk s messageText r).1.conversationContext =
      contextOf (toLowerCase a) := by
  rw [sendMessage_of_followUps toLowerCase clk s messageText r a qs hmsg hr]
  exact ⟨fun h8 => by simp [h8], rfl⟩

/-- Witness of C10 (amended): nine used questions and a response with an
answer and an empty list of follow-up questions. -/
theorem reset_and_reclassify_with_followUps_witness :
    messageToSend nineUsedState none ≠ "" ∧
    successReply (okResponse [("answer", .str "Our pricing..."), ("followUpQuestions", .arr [])]) =
      some (.str "Our pricing...", .arr []) ∧
    8 < nineUsedState.usedQuestions.card ∧
    (sendMessage asciiLower demoClock nineUsedState none
      (okResponse [("answer", .str "Our pricing..."),
        ("followUpQuestions", .arr [])])).1.usedQuestions = ∅ ∧
    (sendMessage asciiLower demoClock nineUsedState none
      (okResponse [("answer", .str "Our pricing..."),
        ("followUpQuestions", .arr [])])).1.conversationContext =
      contextOf (asciiLower "Our pricing...") :=
  ⟨by decide, rfl, by decide,
    (reset_and_reclassify_with_followUps asciiLower demoClock nineUsedState none
      (okResponse [("answer", .str "Our pricing..."), ("followUpQuestions", .arr [])])
      "Our pricing..." [] (by decide) rfl).1 (by decide),
    (reset_and_reclassify_with_followUps asciiLower demoClock nineUsedState none
      (okResponse [("answer", .str "Our pricing..."), ("followUpQuestions", .arr [])])
      "Our pricing..." [] (by decide) rfl).2⟩

/-! ## C11, C12, C20: the request, the typing flag and the speech timer -/

/-- The effects of a call that sends: the chat request built before the
`await`, then the timer that speaks the reply when the success path ran to its
end and the captured `isVoiceEnabled` is set. -/
theorem sendMessage_effects (toLowerCase : String → String) (clk : Clock) (s : State)
    (messageText : Option String) (r : FetchResult) (hmsg : messageToSend s messageText ≠ "") :
    (sendMessage toLowerCase clk s messageText r).2 =
      .fetchChat (beforeFetch clk s messageText (messageToSend s messageText)).2 ::
        match successReply r with
        | none => []
        | some (answer, _) =>
          if throwsAfterReply r = false ∧ s.isVoiceEnabled = true then [.speakLater 500 answer]
          else [] := by
  rcases hsr : successReply r with _ | ⟨answer, followUps⟩
  · simp [sendMessage, hmsg, afterFetch, tryBlock_eq, hsr]
  · cases htf : truthy followUps
    · cases hv : s.isVoiceEnabled <;>
        simp [sendMessage, hmsg, afterFetch, tryBlock_eq, throwsAfterReply, hsr, htf, hv]
    · cases hv : s.isVoiceEnabled <;> cases followUps <;> cases answer <;>
        simp_all [sendMessage, afterFetch, tryBlock_eq, throwsAfterReply, catchBlock,
          isArray, isString, updateConversationContext, truthy]

/-- The typing flag after any call that sends. -/
theorem sendMessage_isTyping (toLowerCase : String → String) (clk : Clock) (s : State)
    (messageText : Option String) (r : FetchResult) (hmsg : messageToSend s messageText ≠ "") :
    (sendMessage toLowerCase clk s messageText r).1.isTyping = false := by
  simp [sendMessage, hmsg, afterFetch]

/-- C11: for every `sendMessage` call with a text to send, `isTyping` is true
in the state the handler leaves while the chat call is outstanding, and it is
false once the call has completed, whatever the outcome: the success path, the
fallback path, or an exception thrown while the response is processed. -/
theorem isTyping_outstanding_then_cleared (toLowerCase : String → String) (clk : Clock)
    (s : State) (messageText : Option String)
    (hmsg : messageToSend s messageText ≠ "") :
    (beforeFetch clk s messageText (messageToSend s messageText)).1.isTyping = true ∧
    ∀ r : FetchResult,
      (sendMessage toLowerCase clk s messageText r).1 =
          (afterFetch toLowerCase clk s
            (beforeFetch clk s messageText (messageToSend s messageText)).1
            (messageToSend s messageText) r).1 ∧
      (sendMessage toLowerCase clk s messageText r).1.isTyping = false := by
  refine ⟨?_, fun r => ⟨?_, sendMessage_isTyping toLowerCase clk s messageText r hmsg⟩⟩
  · rcases messageText with _ | t
    · rfl
    · by_cases ht : t = "" <;> simp [beforeFetch, ht]
  · simp [sendMessage, hmsg]

/-- Witness of C11: `Hello` typed into a fresh session; the flag is cleared
when the API is unreachable, when it answers, and when the answer makes the
handler throw after the reply was appended. -/
theorem isTyping_outstanding_then_cleared_witness :
    messageToSend { demoState with inputValue := "Hello" } none ≠ "" ∧
    (beforeFetch demoClock { demoState with inputValue := "Hello" } none
      (messageToSend { demoState with inputValue := "Hello" } none)).1.isTyping = true ∧
    (sendMessage asciiLower demoClock { demoState with inputValue := "Hello" } none
      .networkError).1.isTyping = false ∧
    (sendMessage asciiLower demoClock { demoState with inputValue := "Hello" } none
      pricingResponse).1.isTyping = false ∧
    throwsAfterReply (okResponse [("answer", .str "Hi there!"),
      ("followUpQuestions", .str "Team info?")]) = true ∧
    (sendMessage asciiLower demoClock { demoState with inputValue := "Hello" } none
      (okResponse [("answer", .str "Hi there!"),
        ("followUpQuestions", .str "Team info?")])).1.isTyping = false :=
  ⟨by decide,
    (isTyping_outstanding_then_cleared asciiLower demoClock
      { demoState with inputValue := "Hello" } none (by decide)).1,
    ((isTyping_outstanding_then_cleared asciiLower demoClock
      { demoState with inputValue := "Hello" } none (by decide)).2 _).2,
    ((isTyping_outstanding_then_cleared asciiLower demoClock
      { demoState with inputValue := "Hello" } none (by decide)).2 _).2,
    by decide,
    ((isTyping_outstanding_then_cleared asciiLower demoClock
      { demoState with inputValue := "Hello" } none (by decide)).2 _).2⟩

/-- C12: for every turn sent when the session holds `n` messages, the
`conversationHistory` of the chat request has length `min 4 n` and is, in
order, the last `min 4 n` messages of the list as it stood before the user
message of this turn was appended: it is a suffix of that list, and the user
message comes after it. -/
theorem conversationHistory_last_four (toLowerCase : String → String) (clk : Clock) (s : State)
    (messageText : Option String) (r : FetchResult)
    (hmsg : messageToSend s messageText ≠ "") :
    ∃ (req : ChatRequest) (rest : List Effect),
      (sendMessage toLowerCase clk s messageText r).2 = .fetchChat req :: rest ∧
      req.message = messageToSend s messageText ∧
      req.conversationHistory =
        s.messages.drop (s.messages.length - min 4 s.messages.length) ∧
      req.conversationHistory.length = min 4 s.messages.length ∧
      List.IsSuffix req.conversationHistory s.messages ∧
      (beforeFetch clk s messageText (messageToSend s messageText)).1.messages =
        s.messages ++ [userMessage clk (messageToSend s messageText)] := by
  refine ⟨_, _, sendMessage_effects toLowerCase clk s messageText r hmsg, rfl, ?_, ?_, ?_, ?_⟩
  · show s.messages.drop (s.messages.length - 4) = _
    congr 1
    omega
  · show (s.messages.drop (s.messages.length - 4)).length = _
    rw [List.length_drop]
    omega
  · exact List.drop_suffix _ _
  · rcases messageText with _ | t
    · rfl
    · by_cases ht : t = "" <;> simp [beforeFetch, ht]

/-- Witness of C12: the second turn of a session, sent when three messages
are held; the history has the three of them. -/
theorem conversationHistory_last_four_witness :
    messageToSend { afterFailedHello with inputValue := "Pricing?" } none ≠ "" ∧
    ({ afterFailedHello with inputValue := "Pricing?" } : State).messages.length = 3 ∧
    ∃ (req : ChatRequest) (rest : List Effect),
      (sendMessage asciiLower demoClock { afterFailedHello with inputValue := "Pricing?" } none
        pricingResponse).2 = .fetchChat req :: rest ∧
      req.message = messageToSend { afterFailedHello with inputValue := "Pricing?" } none ∧
      req.conversationHistory =
        ({ afterFailedHello with inputValue := "Pricing?" } : State).messages.drop
          (({ afterFailedHello with inputValue := "Pricing?" } : State).messages.length -
            min 4 ({ afterFailedHello with inputValue := "Pricing?" } : State).messages.length) ∧
      req.conversationHistory.length =
        min 4 ({ afterFailedHello with inputValue := "Pricing?" } : State).messages.length ∧
      List.IsSuffix req.conversationHistory
        ({ afterFailedHello with inputValue := "Pricing?" } : State).messages ∧
      (beforeFetch demoClock { afterFailedHello with inputValue := "Pricing?" } none
        (messageToSend { afterFailedHello with inputValue := "Pricing?" } none)).1.messages =
        ({ afterFailedHello with inputValue := "Pricing?" } : State).messages ++
          [userMessage demoClock
            (messageToSend { afterFailedHello with inputValue := "Pricing?" } none)] :=
  ⟨by decide, by decide,
    conversationHistory_last_four asciiLower demoClock
      { afterFailedHello with inputValue := "Pricing?" } none pricingResponse (by decide)⟩

/-- C20, as stated, fails: with voice output enabled, a successful response
that carries an answer and no `followUpQuestions` is scheduled for speech, 500
ms after the reply. -/
theorem answer_without_followUps_is_spoken :
    nineUsedState.isVoiceEnabled = true ∧
    successReply answerOnlyResponse = some (.str "Our pricing...", .undefined) ∧
    (sendMessage asciiLower demoClock nineUsedState none answerOnlyResponse).2 =
      [.fetchChat (beforeFetch demoClock nineUsedState none "How much?").2,
       .speakLater 500 (.str "Our pricing...")] :=
  ⟨by decide, rfl, rfl⟩

/-- C20 (amended): for every completed turn, the bot reply is scheduled for
automatic speech exactly when the turn ends on the success path and voice
output is enabled, whether or not the response carried follow-up questions:
then one timer of 500 ms for the answer follows the request; a fallback reply,
a reply after which the handler threw, and any reply with voice output
disabled are not scheduled. -/
theorem reply_spoken_iff_success_and_voice (toLowerCase : String → String) (clk : Clock)
    (s : State) (messageText : Option String) (r : FetchResult)
    (hmsg : messageToSend s messageText ≠ "") :
    (∀ answer followUps, successReply r = some (answer, followUps) →
      throwsAfterReply r = false → s.isVoiceEnabled = true →
      (sendMessage toLowerCase clk s messageText r).2 =
        [.fetchChat (beforeFetch clk s messageText (messageToSend s messageText)).2,
         .speakLater 500 answer]) ∧
    ((successReply r = none ∨ throwsAfterReply r = true ∨ s.isVoiceEnabled = false) →
      (sendMessage toLowerCase clk s messageText r).2 =
        [.fetchChat (beforeFetch clk s messageText (messageToSend s messageText)).2]) := by
  rw [sendMessage_effects toLowerCase clk s messageText r hmsg]
  constructor
  · intro answer followUps hsr ht hv
    simp [hsr, ht, hv]
  · intro h
    rcases hsr : successReply r with _ | ⟨answer, followUps⟩
    · rfl
    · rcases h with h | h | h
      · rw [hsr] at h; cases h
      · simp [h]
      · simp [h]

/-- Witness of C20 (amended): the pricing scenario is spoken, a failed turn is
not. -/
theorem reply_spoken_iff_success_and_voice_witness :
    messageToSend usedContactState none ≠ "" ∧
    (sendMessage asciiLower demoClock usedContactState none pricingResponse).2 =
      [.fetchChat (beforeFetch demoClock usedContactState none
          (messageToSend usedContactState none)).2,
       .speakLater 500 (.str "Our pricing...")] ∧
    (sendMessage asciiLower demoClock usedContactState none .networkError).2 =
      [.fetchChat (beforeFetch demoClock usedContactState none
          (messageToSend usedContactState none)).2] :=
  ⟨by decide,
    (reply_spoken_iff_success_and_voice asciiLower demoClock usedContactState none
      pricingResponse (by decide)).1 _ _ rfl (by decide) (by decide),
    (reply_spoken_iff_success_and_voice asciiLower demoClock usedContactState none
      .networkError (by decide)).2 (Or.inl rfl)⟩

/-! ## C13: the preload of the suggested questions -/

/-- The preload when the fetch rejects or the body cannot be read: the `catch`
block stores the five fallback questions, and nothing else is changed or
asked of the browser. -/
theorem loadCompanyData_of_thrown (s : State) (status : Nat) :
    loadCompanyData s .networkError = ({ s with suggestedQuestions := fallbackSuggestions }, []) ∧
    (responseOk status = true →
      loadCompanyData s (.response status none) =
        ({ s with suggestedQuestions := fallbackSuggestions }, [])) := by
  refine ⟨rfl, fun h => ?_⟩
  simp [loadCompanyData, h]

/-- C13 fails on the code: the company-info call answers with status 500 while
the widget holds its initial, empty pool.  `loadCompanyData` tests
`response.ok` and has no other branch, so the pool stays empty instead of
becoming the five fallback questions; nothing is reported either. -/
theorem preload_non_ok_keeps_empty_pool :
    responseOk 500 = false ∧
    (initialState "ZooTechX" "10:00" []).suggestedQuestions = .arr [] ∧
    loadCompanyData (initialState "ZooTechX" "10:00" []) (.response 500 none) =
      (initialState "ZooTechX" "10:00" [], []) ∧
    (loadCompanyData (initialState "ZooTechX" "10:00" [])
      (.response 500 none)).1.suggestedQuestions ≠ fallbackSuggestions ∧
    (loadCompanyData (initialState "ZooTechX" "10:00" []) .networkError).1.suggestedQuestions =
      .arr [.str "What services do you offer?", .str "How can I contact your team?",
        .str "What results can I expect?", .str "How much do your solutions cost?",
        .str "Can you help with my project?"] := by
  refine ⟨by decide, rfl, rfl, ?_, rfl⟩
  intro h
  cases h

/-! ## C14: voice input while listening -/

/-- C14, as stated, fails in its last clause: more than one session can be
started.  In an idle session with an engine the voice button is pressed twice
before the engine reports its start.  `handleVoiceInput` does not set
`isListening`, which only the `onstart` callback does, so the second press
finds it false and calls `recognition.start()` again; the engine, already
started, throws and a retry of `start()` is scheduled on top.  Once `onstart`
has run, a press stops the session instead. -/
theorem handleVoiceInput_starts_twice :
    idleVoiceState.recognition = true ∧
    idleVoiceState.isListening = false ∧
    handleVoiceInput grantingBrowser idleVoiceState =
      ({ idleVoiceState with inputValue := "" }, [.getUserMedia, .recognitionStart]) ∧
    (handleVoiceInput grantingBrowser idleVoiceState).1.isListening = false ∧
    (handleVoiceInput busyBrowser (handleVoiceInput grantingBrowser idleVoiceState).1).2 =
      [.getUserMedia, .recognitionStart, .retryStartLater 1000] ∧
    (handleVoiceInput busyBrowser
      (recognitionOnstart (handleVoiceInput grantingBrowser idleVoiceState).1)).2 =
      [.recognitionStop] :=
  ⟨rfl, rfl, rfl, rfl, rfl, rfl⟩

/-- C14 (amended): in every state with a recognition engine and `isListening`
set, `handleVoiceInput` calls `recognition.stop()` exactly once and does nothing
else: it does not call `recognition.start()`, does not request the microphone,
does not schedule a retry, raises no alert, and leaves the state, the input
text included, unchanged; so this call starts no recognition session. -/
theorem handleVoiceInput_stops_when_listening (env : VoiceEnv) (s : State)
    (hrec : s.recognition = true) (hlisten : s.isListening = true) :
    handleVoiceInput env s = (s, [.recognitionStop]) ∧
    Effect.recognitionStart ∉ (handleVoiceInput env s).2 ∧
    Effect.getUserMedia ∉ (handleVoiceInput env s).2 ∧
    (∀ delay : Nat, Effect.retryStartLater delay ∉ (handleVoiceInput env s).2) ∧
    (∀ text : String, Effect.alert text ∉ (handleVoiceInput env s).2) ∧
    (handleVoiceInput env s).1.inputValue = s.inputValue := by
  have h : handleVoiceInput env s = (s, [.recognitionStop]) := by
    simp [handleVoiceInput, hrec, hlisten]
  rw [h]
  refine ⟨rfl, ?_, ?_, ?_, ?_, rfl⟩
  · intro hm
    cases hm with
    | tail _ h' => cases h'
  · intro hm
    cases hm with
    | tail _ h' => cases h'
  · intro delay hm
    cases hm with
    | tail _ h' => cases h'
  · intro text hm
    cases hm with
    | tail _ h' => cases h'

/-- Witness of C14 (amended): a listening session with `hel` in the input box,
in a browser that would grant the microphone and start the engine. -/
theorem handleVoiceInput_stops_when_listening_witness :
    listeningVoiceState.recognition = true ∧
    listeningVoiceState.isListening = true ∧
    handleVoiceInput grantingBrowser listeningVoiceState =
      (listeningVoiceState, [.recognitionStop]) ∧
    Effect.recognitionStart ∉ (handleVoiceInput grantingBrowser listeningVoiceState).2 ∧
    (handleVoiceInput grantingBrowser listeningVoiceState).1.inputValue = "hel" :=
  ⟨rfl, rfl,
    (handleVoiceInput_stops_when_listening grantingBrowser listeningVoiceState rfl rfl).1,
    (handleVoiceInput_stops_when_listening grantingBrowser listeningVoiceState rfl rfl).2.1,
    (handleVoiceInput_stops_when_listening grantingBrowser listeningVoiceState rfl
      rfl).2.2.2.2.2⟩

/-! ## C15: the voice output toggle -/

/-- C15: in every state that holds the synthesis engine, with voice output
enabled and `isSpeaking` set, `toggleVoiceOutput` cancels the playback and sets
`isSpeaking` and `isVoiceEnabled` to false; when `isSpeaking` is not set it
only flips `isVoiceEnabled` and issues no cancel. -/
theorem toggleVoiceOutput_cancels_when_speaking (s : State) :
    (s.speechSynthesis = true → s.isVoiceEnabled = true → s.isSpeaking = true →
      toggleVoiceOutput s =
        ({ s with isVoiceEnabled := false, isSpeaking := false }, [.synthesisCancel])) ∧
    (s.isSpeaking = false →
      toggleVoiceOutput s = ({ s with isVoiceEnabled := !s.isVoiceEnabled }, [])) := by
  constructor
  · intro he hv hs
    simp [toggleVoiceOutput, he, hv, hs]
  · intro hs
    simp [toggleVoiceOutput, hs]

/-- Witness of C15: a session speaking a reply, and a silent one. -/
theorem toggleVoiceOutput_cancels_when_speaking_witness :
    toggleVoiceOutput { demoState with speechSynthesis := true, isSpeaking := true } =
      ({ demoState with speechSynthesis := true, isSpeaking := false, isVoiceEnabled := false },
        [.synthesisCancel]) ∧
    toggleVoiceOutput { demoState with speechSynthesis := true } =
      ({ demoState with speechSynthesis := true, isVoiceEnabled := false }, []) :=
  ⟨(toggleVoiceOutput_cancels_when_speaking
      { demoState with speechSynthesis := true, isSpeaking := true }).1 rfl rfl rfl,
    (toggleVoiceOutput_cancels_when_speaking { demoState with speechSynthesis := true }).2 rfl⟩

/-! ## C17: the voice of the utterance -/

/-- The first test of the voice search is the specification's preferred
voice. -/
theorem isMaleVoice_eq_isPreferredVoice (voice : Voice) :
    isMaleVoice voice = isPreferredVoice voice := by
  simp [isMaleVoice, isPreferredVoice, maleNameHints, List.any, Bool.or_assoc]

/-- `find?` returns the first element that passes the test. -/
theorem find?_eq_of_first {α : Type} (p : α → Bool) (pre : List α) (v : α) (post : List α)
    (hpre : ∀ u ∈ pre, p u = false) (hv : p v = true) :
    (pre ++ v :: post).find? p = some v := by
  induction pre with
  | nil => simp [List.find?_cons, hv]
  | cons u pre ih =>
    have hu := hpre u (List.mem_cons_self _ _)
    simp only [List.cons_append, List.find?_cons, hu]
    exact ih fun w hw => hpre w (List.mem_cons_of_mem _ hw)

/-- C17: for every list of voices, `speakText` gives the utterance the first
voice in list order that is preferred (a name with one of the hints Male,
Daniel, Alex, Tom, James, David, or an `en` language with a Google or Microsoft
name); if no voice is preferred, the first voice whose language starts with
`en`; and if there is none, no voice. -/
theorem speakText_voice_choice (voices : List Voice) :
    (∀ (s : State) (text : String), s.speechSynthesis = true → s.isVoiceEnabled = true →
      ∃ u : Utterance, speakText voices s text = (s, [.synthesisCancel, .synthesisSpeak u]) ∧
        u.voice = maleVoice voices) ∧
    (∀ (pre : List Voice) (v : Voice) (post : List Voice), voices = pre ++ v :: post →
      (∀ u ∈ pre, isPreferredVoice u = false) → isPreferredVoice v = true →
      maleVoice voices = some v) ∧
    (∀ (pre : List Voice) (v : Voice) (post : List Voice), voices = pre ++ v :: post →
      (∀ u ∈ voices, isPreferredVoice u = false) →
      (∀ u ∈ pre, startsWith u.lang "en" = false) → startsWith v.lang "en" = true →
      maleVoice voices = some v) ∧
    ((∀ u ∈ voices, isPreferredVoice u = false ∧ startsWith u.lang "en" = false) →
      maleVoice voices = none) := by
  have hnone : (∀ u ∈ voices, isPreferredVoice u = false) → voices.find? isMaleVoice = none := by
    intro h
    apply List.find?_eq_none.2
    intro u hu
    rw [isMaleVoice_eq_isPreferredVoice, h u hu]
    simp
  refine ⟨?_, ?_, ?_, ?_⟩
  · intro s text he hv
    refine ⟨⟨cleanText text, maleVoice voices, 9 / 10, 8 / 10, 8 / 10⟩, ?_, rfl⟩
    simp [speakText, he, hv]
  · intro pre v post hvoices hpre hv
    have : voices.find? isMaleVoice = some v := by
      rw [hvoices]
      apply find?_eq_of_first
      · intro u hu
        rw [isMaleVoice_eq_isPreferredVoice, hpre u hu]
      · rw [isMaleVoice_eq_isPreferredVoice, hv]
    simp [maleVoice, this]
  · intro pre v post hvoices hall hpre hv
    simp only [maleVoice, hnone hall]
    rw [hvoices]
    exact find?_eq_of_first _ pre v post hpre hv
  · intro h
    simp only [maleVoice, hnone fun u hu => (h u hu).1]
    apply List.find?_eq_none.2
    intro u hu
    simp [(h u hu).2]

/-- Witness of C17: among a French voice, an English voice, a Google English
voice and `Daniel`, the Google voice is chosen, being the first preferred one;
without the last two the English voice is chosen; with the French voice alone
no voice is set. -/
theorem speakText_voice_choice_witness :
    maleVoice demoVoices = some { name := "Google UK English Female", lang := "en-GB" } ∧
    maleVoice (demoVoices.take 2) = some { name := "Samantha", lang := "en-US" } ∧
    maleVoice (demoVoices.take 1) = none :=
  ⟨(speakText_voice_choice demoVoices).2.1
      [{ name := "Amelie", lang := "fr-CA" }, { name := "Samantha", lang := "en-US" }]
      { name := "Google UK English Female", lang := "en-GB" }
      [{ name := "Daniel", lang := "en-GB" }] rfl (by decide) (by decide),
    (speakText_voice_choice (demoVoices.take 2)).2.2.1
      [{ name := "Amelie", lang := "fr-CA" }] { name := "Samantha", lang := "en-US" } [] rfl
      (by decide) (by decide) (by decide),
    (speakText_voice_choice (demoVoices.take 1)).2.2.2 (by decide)⟩

/-! ## C16: the text handed to the synthesizer -/

/-- A successful `lazyUntil` splits its input into the captured text, the
closing marker and the rest. -/
theorem lazyUntil_eq_append (close : List Char) (l content rest : List Char)
    (h : lazyUntil close l = some (content, rest)) : l = content ++ close ++ rest := by
  induction l generalizing content with
  | nil =>
    simp only [lazyUntil] at h
    split at h
    · rename_i hc
      cases h
      simpa using hc
    · cases h
  | cons c cs ih =>
    simp only [lazyUntil] at h
    split at h
    · rename_i hp
      cases h
      have := List.prefix_iff_eq_append.1 (List.isPrefixOf_iff_prefix.1 hp)
      simpa using this.symm
    · split at h
      · cases h
      · cases hr : lazyUntil close cs with
        | none => rw [hr] at h; cases h
        | some p =>
          obtain ⟨p1, p2⟩ := p
          rw [hr] at h
          cases h
          rw [ih p1 hr]
          simp

/-- The scan removes nothing but `*`. -/
theorem replacePairsFuel_filter (more : List Char)
    (hmore : more.filter (fun c => c != '*') = []) (n : Nat) (l : List Char) :
    (replacePairsFuel more n l).filter (fun c => c != '*') = l.filter (fun c => c != '*') := by
  induction n generalizing l with
  | zero => rfl
  | succ n ih =>
    cases l with
    | nil => rfl
    | cons c cs =>
      simp only [replacePairsFuel]
      split
      · rename_i hp
        split
        · rename_i content rest hl
          have hsplit := lazyUntil_eq_append _ _ _ _ hl
          have hpre := List.prefix_iff_eq_append.1 (List.isPrefixOf_iff_prefix.1 hp)
          simp only [List.cons_append, List.length_cons, List.drop_succ_cons, List.cons.injEq]
            at hpre
          obtain ⟨hc, hcs⟩ := hpre
          rw [List.filter_append, ih rest, ← hc, ← hcs, hsplit]
          simp [List.filter_append, List.filter_cons, hmore]
        · rw [List.filter_cons, List.filter_cons, ih cs]
      · rw [List.filter_cons, List.filter_cons, ih cs]

/-- The length of the text is bound enough for the scan: any larger bound
gives the same result. -/
theorem replacePairsFuel_eq_replacePairs (more : List Char) (n : Nat) (l : List Char)
    (hn : l.length ≤ n) : replacePairsFuel more n l = replacePairs more l := by
  suffices h : ∀ (n m : Nat) (l : List Char), l.length ≤ n → l.length ≤ m →
      replacePairsFuel more n l = replacePairsFuel more m l from
    h n l.length l hn (Nat.le_refl _)
  intro n
  induction n with
  | zero =>
    intro m l hl _
    have : l = [] := List.eq_nil_of_length_eq_zero (by omega)
    subst this
    cases m <;> rfl
  | succ n ih =>
    intro m l hl hm
    cases l with
    | nil => cases m <;> rfl
    | cons c cs =>
      cases m with
      | zero => simp at hm
      | succ m =>
        simp only [List.length_cons] at hl hm
        simp only [replacePairsFuel]
        split
        · split
          · rename_i content rest hlz
            have hsplit := lazyUntil_eq_append _ _ _ _ hlz
            have hlen : rest.length ≤ cs.length := by
              have := congrArg List.length hsplit
              simp only [List.length_drop, List.length_append, List.length_cons] at this
              omega
            rw [ih m rest (by omega) (by omega)]
          · rw [ih m cs (by omega) (by omega)]
        · rw [ih m cs (by omega) (by omega)]

/-- The last two replacements see only what is left when every `*` is dropped
first. -/
theorem finalSteps_filter (l : List Char) :
    (l.map fun c => if c = '\n' then ' ' else c).filter
        (fun c => !(c = '#' || c = '*' || c = Char.ofNat 96)) =
      ((l.filter fun c => c != '*').filter
        fun c => !(c = '*' || c = '#' || c = Char.ofNat 96)).map
        fun c => if c = '\n' then ' ' else c := by
  induction l with
  | nil => rfl
  | cons c cs ih =>
    by_cases h1 : c = '*'
    · subst h1
      simpa [List.filter_cons] using ih
    · by_cases h2 : c = '#'
      · subst h2
        simpa [List.filter_cons] using ih
      · by_cases h3 : c = Char.ofNat 96
        · subst h3
          simpa [List.filter_cons] using ih
        · by_cases h4 : c = '\n'
          · subst h4
            simpa [List.filter_cons] using ih
          · simpa [List.filter_cons, h1, h2, h3, h4] using ih

/-- C16: for every text, the string `speakText` hands to the synthesizer is the
text with every `*`, `#` and backquote deleted and every newline replaced by
one blank; the two emphasis replacements add nothing to that.  The result holds
no `*`, `#`, backquote or newline, and a text with none of them is passed
through unchanged. -/
theorem cleanText_eq_plainText (text : String) :
    cleanText text = plainText text ∧
    (∀ c ∈ (cleanText text).data,
      c ≠ '*' ∧ c ≠ '#' ∧ c ≠ Char.ofNat 96 ∧ c ≠ '\n') ∧
    ((∀ c ∈ text.data, c ≠ '*' ∧ c ≠ '#' ∧ c ≠ Char.ofNat 96 ∧ c ≠ '\n') →
      cleanText text = text) ∧
    (∀ (voices : List Voice) (s : State), s.speechSynthesis = true → s.isVoiceEnabled = true →
      ∃ u : Utterance, speakText voices s text = (s, [.synthesisCancel, .synthesisSpeak u]) ∧
        u.text = plainText text) := by
  have hmain : cleanText text = plainText text := by
    unfold cleanText plainText
    apply congrArg String.mk
    rw [finalSteps_filter, replacePairs, replacePairsFuel_filter [] rfl, replacePairs,
      replacePairsFuel_filter ['*'] rfl, List.filter_filter]
    apply congrArg (List.map _)
    apply List.filter_congr
    intro c _
    by_cases h : c = '*' <;> simp [h]
  refine ⟨hmain, ?_, ?_, ?_⟩
  · intro c hc
    rw [hmain] at hc
    simp only [plainText, List.mem_map, List.mem_filter] at hc
    obtain ⟨d, ⟨_, hd⟩, rfl⟩ := hc
    simp only [Bool.not_eq_true', Bool.or_eq_false_iff, decide_eq_false_iff_not] at hd
    obtain ⟨⟨h1, h2⟩, h3⟩ := hd
    by_cases h4 : d = '\n'
    · subst h4
      decide
    · simp [h1, h2, h3, h4]
  · intro h
    rw [hmain]
    unfold plainText
    have hf : text.data.filter (fun c => !(c = '*' || c = '#' || c = Char.ofNat 96)) =
        text.data := by
      apply List.filter_eq_self.2
      intro c hc
      obtain ⟨h1, h2, h3, _⟩ := h c hc
      simp [h1, h2, h3]
    rw [hf]
    have hm : text.data.map (fun c => if c = '\n' then ' ' else c) = text.data := by
      conv_rhs => rw [← List.map_id text.data]
      apply List.map_congr_left
      intro c hc
      simp [(h c hc).2.2.2]
    rw [hm]
  · intro voices s he hv
    refine ⟨⟨cleanText text, maleVoice voices, 9 / 10, 8 / 10, 8 / 10⟩, ?_, hmain⟩
    simp [speakText, he, hv]

/-- Witness of C16: a reply with bold, italic, a heading and a line break. -/
theorem cleanText_eq_plainText_witness :
    cleanText "**Hi** *you*\n#1" = plainText "**Hi** *you*\n#1" ∧
    plainText "**Hi** *you*\n#1" = "Hi you 1" ∧
    cleanText "Our pricing..." = "Our pricing..." :=
  ⟨(cleanText_eq_plainText "**Hi** *you*\n#1").1, by decide,
    (cleanText_eq_plainText "Our pricing...").2.2.1 (by decide)⟩

end CompanyChatbot

namespace Embed

/-! ## C18: loading the script more than once -/

/-- After one run the flag is set. -/
theorem embedScript_sets_flag (p : Page) : (embedScript p).ZooTechXChatLoaded = true := by
  unfold embedScript
  by_cases h : p.ZooTechXChatLoaded = true
  · simp [h]
  · by_cases hr : p.readyState = .loading <;> simp [h, hr, initChatWidget]

/-- A second run changes nothing. -/
theorem embedScript_twice (p : Page) : embedScript (embedScript p) = embedScript p := by
  have h := embedScript_sets_flag p
  generalize embedScript p = q at h
  simp [embedScript, h]

/-- Any number of further runs changes nothing. -/
theorem embedScript_iterate (n : Nat) (p : Page) :
    Nat.iterate embedScript (n + 1) p = embedScript p := by
  induction n generalizing p with
  | zero => rfl
  | succ n ih =>
    rw [Function.iterate_succ_apply, ih, embedScript_twice]

/-- C18: running the script any number of times on a page has the effect of
running it once.  On a page that had not seen the script and holds no element
with the two ids, two loads leave, once the widget is initialised (at once when
the document is not loading, else at `DOMContentLoaded`), exactly one element
with id `zootechx-chat-button`, exactly one with id `zootechx-chat-container`,
and exactly one more `click` listener and one more `resize` listener. -/
theorem embedScript_loads_once (p : Page) (hflag : p.ZooTechXChatLoaded = false)
    (hpending : p.pendingInits = 0)
    (hids : ∀ e ∈ p.body, e.id ≠ "zootechx-chat-button" ∧ e.id ≠ "zootechx-chat-container") :
    (∀ n : Nat, Nat.iterate embedScript (n + 1) p = embedScript p) ∧
    (p.readyState ≠ .loading →
      domContentLoaded (embedScript (embedScript p)) = embedScript (embedScript p)) ∧
    (domContentLoaded (embedScript (embedScript p))).body =
      p.body ++ [createChatButton, createChatContainer] ∧
    ((domContentLoaded (embedScript (embedScript p))).body.filter
      fun e => e.id = "zootechx-chat-button").length = 1 ∧
    ((domContentLoaded (embedScript (embedScript p))).body.filter
      fun e => e.id = "zootechx-chat-container").length = 1 ∧
    (domContentLoaded (embedScript (embedScript p))).clickListeners = p.clickListeners + 1 ∧
    (domContentLoaded (embedScript (embedScript p))).resizeListeners = p.resizeListeners + 1 ∧
    (domContentLoaded (embedScript (embedScript p))).widgets.length = p.widgets.length + 1 := by
  have hbody : (domContentLoaded (embedScript (embedScript p))).body =
      p.body ++ [createChatButton, createChatContainer] := by
    rw [embedScript_twice]
    by_cases hr : p.readyState = .loading <;>
      simp [embedScript, domContentLoaded, hflag, hpending, hr, initChatWidget]
  have hb : p.body.filter (fun e => e.id = "zootechx-chat-button") = [] := by
    apply List.filter_eq_nil_iff.2
    intro e he
    simp [(hids e he).1]
  have hc : p.body.filter (fun e => e.id = "zootechx-chat-container") = [] := by
    apply List.filter_eq_nil_iff.2
    intro e he
    simp [(hids e he).2]
  refine ⟨fun n => embedScript_iterate n p, ?_, hbody, ?_, ?_, ?_, ?_, ?_⟩
  · intro hr
    rw [embedScript_twice]
    simp [embedScript, domContentLoaded, hflag, hr, initChatWidget]
  · rw [hbody, List.filter_append, hb]
    decide
  · rw [hbody, List.filter_append, hc]
    decide
  · rw [embedScript_twice]
    by_cases hr : p.readyState = .loading <;>
      simp [embedScript, domContentLoaded, hflag, hpending, hr, initChatWidget]
  · rw [embedScript_twice]
    by_cases hr : p.readyState = .loading <;>
      simp [embedScript, domContentLoaded, hflag, hpending, hr, initChatWidget]
  · rw [embedScript_twice]
    by_cases hr : p.readyState = .loading <;>
      simp [embedScript, domContentLoaded, hflag, hpending, hr, initChatWidget]

/-- Witness of C18: the script loaded twice on a page that is still loading
and on a page that is complete, each with one element of its own. -/
theorem embedScript_loads_once_witness :
    (freshPage .loading 1024 [{ tag := "div", id := "app" }]).ZooTechXChatLoaded = false ∧
    (freshPage .loading 1024 [{ tag := "div", id := "app" }]).pendingInits = 0 ∧
    (∀ e ∈ (freshPage .loading 1024 [{ tag := "div", id := "app" }]).body,
      e.id ≠ "zootechx-chat-button" ∧ e.id ≠ "zootechx-chat-container") ∧
    (domContentLoaded (embedScript (embedScript
      (freshPage .loading 1024 [{ tag := "div", id := "app" }])))).body =
      (freshPage .loading 1024 [{ tag := "div", id := "app" }]).body ++
        [createChatButton, createChatContainer] ∧
    (embedScript (embedScript (freshPage .complete 1024 [{ tag := "div", id := "app" }]))).body =
      [{ tag := "div", id := "app" }, createChatButton, createChatContainer] :=
  ⟨rfl, rfl, by decide,
    (embedScript_loads_once (freshPage .loading 1024 [{ tag := "div", id := "app" }]) rfl rfl
      (by decide)).2.2.1,
    by decide⟩

/-! ## C19: a click on the chat button -/

/-- A click on the button element itself negates the flag, and the display of
the container follows the flag. -/
theorem click_button_toggles (w : Widget) :
    (click .button w).isOpen = !w.isOpen ∧
    ((click .button w).containerDisplay = "block" ↔ (click .button w).isOpen = true) := by
  cases h : w.isOpen <;> simp [click, buttonOnclick, documentClick, h]

/-- A click on the icon inside the button leaves the widget closed: the handler
of the button runs first, then the listener on the document closes what it
opened. -/
theorem click_icon_closes (w : Widget) :
    (click .buttonIcon w).isOpen = false ∧ (click .buttonIcon w).containerDisplay = "none" := by
  cases h : w.isOpen <;> simp [click, buttonOnclick, documentClick, h]

/-- C19 fails on the code: the widget is closed and the click lands on the icon
inside the button.  `button.onclick` opens the panel, then the `click` listener
on the document, for which the icon is neither in the container nor the button
itself, closes it again: the flag is false after the click as before, and the
display is `none`.  A click on the button element itself does open it. -/
theorem click_on_icon_does_not_open :
    (embedScript (freshPage .complete 1024 [])).widgets = [closedWidget] ∧
    closedWidget.isOpen = false ∧
    (buttonOnclick closedWidget).isOpen = true ∧
    (click .buttonIcon closedWidget).isOpen = false ∧
    (click .buttonIcon closedWidget).containerDisplay = "none" ∧
    (click .button closedWidget).isOpen = true ∧
    (click .button closedWidget).containerDisplay = "block" := by
  decide

end Embed

namespace CompanyChatbot

/-! ## C21: the speaker button of a message -/

/-- With voice output disabled `speakMessage` hands nothing to the
synthesizer; with an engine and voice output enabled it speaks the text. -/
theorem speakMessage_eq (voices : List Voice) (s : State) (text : String) :
    speakMessage voices s text = speakText voices s text ∧
    (s.isVoiceEnabled = false → speakMessage voices s text = (s, [])) := by
  constructor
  · unfold speakMessage
    split <;> rfl
  · intro h
    simp [speakMessage, speakText, h]

/-- C21 fails on the code: the state holds the synthesis engine, voice output
is disabled, and the speaker button of the message `Our pricing...` is
pressed.  `speakMessage` calls `speakText`, which returns at once because
`isVoiceEnabled` is false: nothing is handed to the synthesizer and voice
output stays disabled.  With voice output enabled the same call cancels the
current speech and speaks the text. -/
theorem speakMessage_muted_says_nothing :
    mutedState.speechSynthesis = true ∧
    mutedState.isVoiceEnabled = false ∧
    speakMessage demoVoices mutedState "Our pricing..." = (mutedState, []) ∧
    (speakMessage demoVoices { mutedState with isVoiceEnabled := true } "Our pricing...").2 =
      [.synthesisCancel,
       .synthesisSpeak
        { text := "Our pricing...",
          voice := some { name := "Google UK English Female", lang := "en-GB" },
          rate := 9 / 10, pitch := 8 / 10, volume := 8 / 10 }] := by
  refine ⟨rfl, rfl, ?_, ?_⟩
  · exact (speakMessage_eq demoVoices mutedState "Our pricing...").2 rfl
  · have h : cleanText "Our pricing..." = "Our pricing..." := by decide
    have hv : maleVoice demoVoices =
        some { name := "Google UK English Female", lang := "en-GB" } := by decide
    simp [speakMessage, speakText, mutedState, demoState, toggleChat, initialState, h, hv]

/-! ## C22: emojis in a formatted message -/

/-- C22 fails on the code: the content is the robot face U+1F916 followed by
` Hi`.  The character class of `formatMessage` has no range for the block
U+1F900 to U+1F9FF, so the robot face is kept and the output is the content
itself; the grinning face U+1F600, which is in a listed range, is removed. -/
theorem formatMessage_keeps_robot_face :
    formatMessage robotGreeting = robotGreeting ∧
    Char.ofNat 0x1F916 ∈ (formatMessage robotGreeting).data ∧
    0x1F900 ≤ (Char.ofNat 0x1F916).toNat ∧ (Char.ofNat 0x1F916).toNat ≤ 0x1F9FF ∧
    isListedEmoji (Char.ofNat 0x1F916) = false ∧
    formatMessage grinningGreeting = "Hi" := by
  decide

end CompanyChatbot

namespace CompanyChatbot

/-- The bold replacement keeps a property of the characters that holds for the
characters of the two tags. -/
theorem strongFuel_forall (P : Char → Prop) (htags : ∀ c ∈ "<strong>".data ++ "</strong>".data, P c)
    (n : Nat) (l : List Char) (h : ∀ c ∈ l, P c) : ∀ c ∈ strongFuel n l, P c := by
  induction n generalizing l with
  | zero => exact h
  | succ n ih =>
    cases l with
    | nil => intro c hc; cases hc
    | cons a as =>
      have has : ∀ c ∈ as, P c := fun c hc => h c (List.mem_cons_of_mem _ hc)
      simp only [strongFuel]
      split
      · split
        · rename_i content rest hl
          have hsplit := lazyUntil_eq_append _ _ _ _ hl
          have hdrop : ∀ c ∈ as.drop 1, P c := fun c hc => has c (List.mem_of_mem_drop hc)
          rw [hsplit] at hdrop
          intro c hc
          simp only [List.mem_append] at hc
          rcases hc with ((hc | hc) | hc) | hc
          · exact htags c (List.mem_append_left _ hc)
          · exact hdrop c (by simp [hc])
          · exact htags c (List.mem_append_right _ hc)
          · exact ih rest (fun d hd => hdrop d (by simp [hd])) c hc
        · intro c hc
          rcases List.mem_cons.1 hc with rfl | hc
          · exact h _ (List.mem_cons_self _ _)
          · exact ih as has c hc
      · intro c hc
        rcases List.mem_cons.1 hc with rfl | hc
        · exact h _ (List.mem_cons_self _ _)
        · exact ih as has c hc

/-- The bullet replacement keeps a property of the characters that holds for
the bullet and the blank. -/
theorem bulletsFuel_forall (P : Char → Prop) (hb : P '•') (hs : P ' ')
    (n : Nat) (lineStart : Bool) (l : List Char) (h : ∀ c ∈ l, P c) :
    ∀ c ∈ bulletsFuel n lineStart l, P c := by
  induction n generalizing l lineStart with
  | zero => exact h
  | succ n ih =>
    cases l with
    | nil => intro c hc; cases hc
    | cons a as =>
      have has : ∀ c ∈ as, P c := fun c hc => h c (List.mem_cons_of_mem _ hc)
      simp only [bulletsFuel]
      split
      · split
        · intro c hc
          rcases List.mem_cons.1 hc with rfl | hc
          · exact h _ (List.mem_cons_self _ _)
          · exact ih _ as has c hc
        · intro c hc
          rcases List.mem_cons.1 hc with rfl | hc
          · exact hb
          · rcases List.mem_cons.1 hc with rfl | hc
            · exact hs
            · exact ih _ _ (fun d hd => has d ((List.dropWhile_sublist _).subset hd)) c hc
      · intro c hc
        rcases List.mem_cons.1 hc with rfl | hc
        · exact h _ (List.mem_cons_self _ _)
        · exact ih _ as has c hc

/-- Skipping the dot keeps the characters of the text. -/
theorem skipDot_subset (l : List Char) : ∀ c ∈ skipDot l, c ∈ l := by
  intro c hc
  unfold skipDot at hc
  split at hc
  · exact List.mem_cons_of_mem _ hc
  · exact hc

/-- The numbered-list replacement keeps a property of the characters that
holds for the dot and the blank. -/
theorem numbersFuel_forall (P : Char → Prop) (hd : P '.') (hs : P ' ')
    (n : Nat) (lineStart : Bool) (l : List Char) (h : ∀ c ∈ l, P c) :
    ∀ c ∈ numbersFuel n lineStart l, P c := by
  induction n generalizing l lineStart with
  | zero => exact h
  | succ n ih =>
    cases l with
    | nil => intro c hc; cases hc
    | cons a as =>
      have has : ∀ c ∈ as, P c := fun c hc => h c (List.mem_cons_of_mem _ hc)
      simp only [numbersFuel]
      split
      · split
        · intro c hc
          rcases List.mem_cons.1 hc with rfl | hc
          · exact h _ (List.mem_cons_self _ _)
          · exact ih _ as has c hc
        · intro c hc
          rcases List.mem_append.1 hc with hc | hc
          · rcases List.mem_cons.1 hc with rfl | hc
            · exact h _ (List.mem_cons_self _ _)
            · exact has c ((List.takeWhile_sublist _).subset hc)
          · rcases List.mem_cons.1 hc with rfl | hc
            · exact hd
            · rcases List.mem_cons.1 hc with rfl | hc
              · exact hs
              · refine ih _ _ (fun d hd => has d ?_) c hc
                exact (List.dropWhile_sublist _).subset
                  (skipDot_subset _ d ((List.dropWhile_sublist _).subset hd))
      · intro c hc
        rcases List.mem_cons.1 hc with rfl | hc
        · exact h _ (List.mem_cons_self _ _)
        · exact ih _ as has c hc

/-- The blank-line replacement keeps a property of the characters that holds
for the newline. -/
theorem blankLinesFuel_forall (P : Char → Prop) (hn : P '\n')
    (n : Nat) (l : List Char) (h : ∀ c ∈ l, P c) : ∀ c ∈ blankLinesFuel n l, P c := by
  induction n generalizing l with
  | zero => exact h
  | succ n ih =>
    cases l with
    | nil => intro c hc; cases hc
    | cons a as =>
      have has : ∀ c ∈ as, P c := fun c hc => h c (List.mem_cons_of_mem _ hc)
      simp only [blankLinesFuel]
      split
      · intro c hc
        rcases List.mem_cons.1 hc with rfl | hc
        · exact hn
        · refine ih _ (fun d hd => has d ?_) c hc
          rcases List.mem_append.1 hd with hd | hd
          · unfold afterLastNewline at hd
            exact (List.takeWhile_sublist _).subset (List.mem_reverse.1
              ((List.takeWhile_sublist _).subset (List.mem_reverse.1 hd)))
          · exact (List.dropWhile_sublist _).subset hd
      · intro c hc
        rcases List.mem_cons.1 hc with rfl | hc
        · exact h _ (List.mem_cons_self _ _)
        · exact ih as has c hc

/-- `trim` keeps characters of the text, and the text it returns neither
starts nor ends with white space. -/
theorem trim_spec (s : String) :
    (∀ c ∈ (trim s).data, c ∈ s.data) ∧
    (∀ c, (trim s).data.head? = some c → isWhiteSpace c = false) ∧
    (∀ c, (trim s).data.getLast? = some c → isWhiteSpace c = false) := by
  have hdata : (trim s).data = (s.data.dropWhile isWhiteSpace).rdropWhile isWhiteSpace := rfl
  refine ⟨?_, ?_, ?_⟩
  · intro c hc
    rw [hdata] at hc
    exact (List.dropWhile_sublist _).subset ((List.rdropWhile_prefix _ _).subset hc)
  · intro c hc
    rw [hdata] at hc
    have hne : (s.data.dropWhile isWhiteSpace).rdropWhile isWhiteSpace ≠ [] := by
      intro h0
      rw [h0] at hc
      cases hc
    have hhead := (List.rdropWhile_prefix isWhiteSpace _).head hne
    rw [List.head?_eq_head hne] at hc
    cases hc
    rw [hhead]
    exact List.head_dropWhile_not _ _ _
  · intro c hc
    rw [hdata] at hc
    have hne : (s.data.dropWhile isWhiteSpace).rdropWhile isWhiteSpace ≠ [] := by
      intro h0
      rw [h0] at hc
      cases hc
    rw [List.getLast?_eq_getLast _ hne] at hc
    cases hc
    simpa using List.rdropWhile_last_not isWhiteSpace _ hne

/-- What `formatMessage` does achieve: its output holds no code point of the
six ranges of its character class, and it neither starts nor ends with white
space. -/
theorem formatMessage_listed_emoji_free (content : String) :
    (∀ c ∈ (formatMessage content).data, isListedEmoji c = false) ∧
    (∀ c, (formatMessage content).data.head? = some c → isWhiteSpace c = false) ∧
    (∀ c, (formatMessage content).data.getLast? = some c → isWhiteSpace c = false) := by
  refine ⟨?_, (trim_spec _).2.1, (trim_spec _).2.2⟩
  intro c hc
  have hc := (trim_spec _).1 c hc
  refine blankLinesFuel_forall (fun c => isListedEmoji c = false) (by decide) _ _ ?_ c hc
  refine numbersFuel_forall (fun c => isListedEmoji c = false) (by decide) (by decide) _ _ _ ?_
  refine bulletsFuel_forall (fun c => isListedEmoji c = false) (by decide) (by decide) _ _ _ ?_
  refine strongFuel_forall (fun c => isListedEmoji c = false) (by decide) _ _ ?_
  intro d hd
  simpa using (List.mem_filter.1 hd).2

end CompanyChatbot

namespace CompanyChatbot

/-! ## The step bounds of the scans of `formatMessage` -/

/-- The length of the text is bound enough for the bold replacement. -/
theorem strongFuel_stable (n m : Nat) (l : List Char) (hn : l.length ≤ n) (hm : l.length ≤ m) :
    strongFuel n l = strongFuel m l := by
  induction n generalizing m l with
  | zero =>
    have : l = [] := List.eq_nil_of_length_eq_zero (by omega)
    subst this
    cases m <;> rfl
  | succ n ih =>
    cases l with
    | nil => cases m <;> rfl
    | cons c cs =>
      cases m with
      | zero => simp at hm
      | succ m =>
        simp only [List.length_cons] at hn hm
        simp only [strongFuel]
        split
        · split
          · rename_i content rest hlz
            have hlen : rest.length ≤ cs.length := by
              have := congrArg List.length (lazyUntil_eq_append _ _ _ _ hlz)
              simp only [List.length_drop, List.length_append, List.length_cons] at this
              omega
            rw [ih m rest (by omega) (by omega)]
          · rw [ih m cs (by omega) (by omega)]
        · rw [ih m cs (by omega) (by omega)]

/-- The length of the text is bound enough for the bullet replacement. -/
theorem bulletsFuel_stable (n m : Nat) (b : Bool) (l : List Char) (hn : l.length ≤ n)
    (hm : l.length ≤ m) : bulletsFuel n b l = bulletsFuel m b l := by
  induction n generalizing m b l with
  | zero =>
    have : l = [] := List.eq_nil_of_length_eq_zero (by omega)
    subst this
    cases m <;> rfl
  | succ n ih =>
    cases l with
    | nil => cases m <;> rfl
    | cons c cs =>
      cases m with
      | zero => simp at hm
      | succ m =>
        simp only [List.length_cons] at hn hm
        have hlen : (cs.dropWhile isWhiteSpace).length ≤ cs.length :=
          (List.dropWhile_sublist _).length_le
        simp only [bulletsFuel]
        split
        · split
          · rw [ih m _ cs (by omega) (by omega)]
          · rw [ih m _ _ (by omega) (by omega)]
        · rw [ih m _ cs (by omega) (by omega)]

/-- Skipping the dot does not lengthen the text. -/
theorem skipDot_length_le (l : List Char) : (skipDot l).length ≤ l.length := by
  unfold skipDot
  split
  · simp
  · exact Nat.le_refl _

/-- The length of the text is bound enough for the numbered-list
replacement. -/
theorem numbersFuel_stable (n m : Nat) (b : Bool) (l : List Char) (hn : l.length ≤ n)
    (hm : l.length ≤ m) : numbersFuel n b l = numbersFuel m b l := by
  induction n generalizing m b l with
  | zero =>
    have : l = [] := List.eq_nil_of_length_eq_zero (by omega)
    subst this
    cases m <;> rfl
  | succ n ih =>
    cases l with
    | nil => cases m <;> rfl
    | cons c cs =>
      cases m with
      | zero => simp at hm
      | succ m =>
        simp only [List.length_cons] at hn hm
        have hlen : ((skipDot (cs.dropWhile Char.isDigit)).dropWhile isWhiteSpace).length ≤
            cs.length := by
          have h1 := (List.dropWhile_sublist isWhiteSpace
            (l := skipDot (cs.dropWhile Char.isDigit))).length_le
          have h2 := skipDot_length_le (cs.dropWhile Char.isDigit)
          have h3 := (List.dropWhile_sublist Char.isDigit (l := cs)).length_le
          omega
        simp only [numbersFuel]
        split
        · split
          · rw [ih m _ cs (by omega) (by omega)]
          · rw [ih m _ _ (by omega) (by omega)]
        · rw [ih m _ cs (by omega) (by omega)]

/-- The length of the text is bound enough for the blank-line replacement. -/
theorem blankLinesFuel_stable (n m : Nat) (l : List Char) (hn : l.length ≤ n)
    (hm : l.length ≤ m) : blankLinesFuel n l = blankLinesFuel m l := by
  induction n generalizing m l with
  | zero =>
    have : l = [] := List.eq_nil_of_length_eq_zero (by omega)
    subst this
    cases m <;> rfl
  | succ n ih =>
    cases l with
    | nil => cases m <;> rfl
    | cons c cs =>
      cases m with
      | zero => simp at hm
      | succ m =>
        simp only [List.length_cons] at hn hm
        have hlen : (afterLastNewline (cs.takeWhile isWhiteSpace) ++
            cs.dropWhile isWhiteSpace).length ≤ cs.length := by
          have h1 : (afterLastNewline (cs.takeWhile isWhiteSpace)).length ≤
              (cs.takeWhile isWhiteSpace).length := by
            unfold afterLastNewline
            rw [List.length_reverse]
            exact ((List.takeWhile_sublist _).length_le).trans (by simp)
          have h2 := congrArg List.length (List.takeWhile_append_dropWhile isWhiteSpace cs)
          simp only [List.length_append] at h2 ⊢
          omega
        simp only [blankLinesFuel]
        split
        · rw [ih m _ (by omega) (by omega)]
        · rw [ih m cs (by omega) (by omega)]

end CompanyChatbot
